import Mathlib

/-!
Shallow embedding of the QUANTUM-COMPUTING repository
(quantum_mcp_server: circuit IR, engine adapters, orchestrator).

Conventions of the embedding:
* Python dicts keyed by strings are association lists with first-match
  lookup (dict keys are unique, so first match is the only match).
* Python floats are modelled by exact rationals; the only arithmetic the
  claims touch is count/total division and sums thereof.
* Fallible Python code (exceptions) is modelled with Except String.
* The external simulation engines (Qiskit Aer, Cirq, PennyLane lightning,
  PyTKET Aer) are black boxes; they are modelled only on the fragment the
  claims exercise: deterministic classical circuits (x / cx / swap / ccx),
  where every shot yields the same outcome, reported per the documented native bit convention of each engine (Qiskit: little-endian keys, as stated
  in the adapter source comment; Cirq / PennyLane / PyTKET: one entry per
  qubit in ascending index order).  Option.none marks "outside the
  modelled fragment", never an engine error.
* Wall-clock execution_time and raw_result are outside the embedding and
  omitted from the result record.
-/

set_option maxHeartbeats 1000000

namespace QuantumMCP

/-- Python-style list indexing: raises IndexError when out of range.
    Models the bare subscripts gates[i], qubits[i], params[i]. -/
def pyIdx {α : Type} (l : List α) (i : Nat) : Except String α :=
  match l.get? i with
  | some v => Except.ok v
  | none => Except.error "IndexError: list index out of range"

/-- ASCII lowercasing of one character, as Python str.lower acts on the
    ASCII gate names this system uses. -/
def lowerChar (c : Char) : Char :=
  if 65 ≤ c.toNat ∧ c.toNat ≤ 90 then Char.ofNat (c.toNat + 32) else c

/-- Python lowercasing of the gate type field, on ASCII strings. -/
def pyLower (s : String) : String := String.mk (s.data.map lowerChar)

/-- First-match lookup in an association list, i.e. Python dict lookup
    (dict keys are unique so first match is the only match). -/
def pyLookup {α : Type} (m : List (String × α)) (k : String) : Option α :=
  match m with
  | [] => none
  | p :: rest => if p.1 = k then some p.2 else pyLookup rest k

/-- Python dict assignment d[k] = v: overwrite in place when the key is
    present, append otherwise. -/
def dictInsert {α : Type} (m : List (String × α)) (k : String) (v : α) :
    List (String × α) :=
  if (pyLookup m k).isSome then
    m.map (fun p => if p.1 = k then (k, v) else p)
  else m ++ [(k, v)]

/-- One circuit instruction of the engine-neutral IR: gate name, operand
    qubit indices, optional real parameters (backends/base.py and the
    gate dicts consumed by every create_circuit). -/
structure GateOp where
  type : String
  qubits : List Nat
  params : List Rat
  deriving DecidableEq, Repr

/-- Caller-supplied circuit definition dict.  none in a field models the
    key being absent; circuit_def.get(key, default) is gatesD / measureD. -/
structure CircuitDef where
  gates : Option (List GateOp) := none
  measure : Option Bool := none
  deriving DecidableEq, Repr

/-- Read the gates key of the definition dict, defaulting to empty. -/
def CircuitDef.gatesD (d : CircuitDef) : List GateOp := d.gates.getD []

/-- Read the measure key of the definition dict, defaulting to true. -/
def CircuitDef.measureD (d : CircuitDef) : Bool := d.measure.getD true

/-- QuantumBackend.validate_circuit_def (backends/base.py:92-95): returns
    whether every required key (just the gates key) is present in the dict. -/
def validate_circuit_def (d : CircuitDef) : Bool := d.gates.isSome

/-- Native instruction appended to an engine circuit by a dispatch chain.
    One shared inductive serves all four adapters: the create_circuit of
    each adapter emits exactly the native gate calls its source makes,
    and measureAll stands for measure_all() / cirq.measure(*qubits). -/
inductive NInstr where
  | h (q : Nat)
  | x (q : Nat)
  | y (q : Nat)
  | z (q : Nat)
  | s (q : Nat)
  | t (q : Nat)
  | rx (theta : Rat) (q : Nat)
  | ry (theta : Rat) (q : Nat)
  | rz (theta : Rat) (q : Nat)
  | cx (a b : Nat)
  | cz (a b : Nat)
  | swap (a b : Nat)
  | cp (theta : Rat) (a b : Nat)
  | ccx (a b c : Nat)
  | measureAll
  deriving DecidableEq, Repr

/-- Engine-native circuit: qubit count plus ordered instruction list. -/
structure NativeCircuit where
  num_qubits : Nat
  instrs : List NInstr
  deriving DecidableEq, Repr

/-- Qubit-index validation performed by the native engine when a gate is
    appended (Qiskit raises CircuitError, Cirq IndexError on the qubit
    list, PyTKET RuntimeError); the message carries the engine name. -/
def chkQubit (engine : String) (n q : Nat) : Except String Nat :=
  if q < n then Except.ok q
  else Except.error (engine ++ ": qubit index out of range")

/-- Duplicate-operand rejection performed by the native engines when a
    multi-qubit gate is appended (Qiskit CircuitError duplicate qubit
    arguments, Cirq ValueError Duplicate qids, PyTKET RuntimeError on
    duplicate units, PennyLane WireError): the operand qubits of one
    gate must be distinct.  The message carries the engine name. -/
def chkDistinct (engine : String) (qs : List Nat) : Except String Unit :=
  if qs.Nodup then Except.ok ()
  else Except.error (engine ++ ": duplicate qubit arguments")

/-- Gate names recognised by the Qiskit dispatch chain
    (qiskit_backend.py:22-61); the same set is recognised by the
    PennyLane chain (pennylane_backend.py:38-77). -/
def qiskitGateNames : List String :=
  ["h", "hadamard", "x", "pauli_x", "y", "pauli_y", "z", "pauli_z",
   "s", "t", "rx", "ry", "rz", "cx", "cnot", "cz", "swap", "cp",
   "ccx", "toffoli"]

/-- Gate names recognised by the Cirq dispatch chain
    (cirq_backend.py:21-56); the same set is recognised by the PyTKET
    chain (pytket_backend.py:17-56).  Unlike Qiskit/PennyLane there is
    no controlled-phase entry. -/
def cirqGateNames : List String :=
  ["h", "hadamard", "x", "pauli_x", "y", "pauli_y", "z", "pauli_z",
   "s", "t", "rx", "ry", "rz", "cx", "cnot", "cz", "swap",
   "ccx", "toffoli"]

/-- Gate dispatch chain shared by QiskitBackend.create_circuit
    (qiskit_backend.py:22-61) and the PennyLane qnode body
    (pennylane_backend.py:38-77), which are textually parallel: the
    if/elif chain keyed on the lowercased gate type, including the
    controlled-phase branch; a gate type that matches no branch
    contributes no instruction (the chain has no else).  Operand and
    parameter subscripts raise IndexError when the lists are too short,
    and the engine named by the first argument rejects an out-of-range
    qubit index as well as duplicate operand qubits within one gate. -/
def gateChainWithCP (engine : String) (n : Nat) (g : GateOp) :
    Except String (List NInstr) := do
  let ty := pyLower g.type
  let qs := g.qubits
  let ps := g.params
  if ty = "h" ∨ ty = "hadamard" then
    let q ← pyIdx qs 0
    let q ← chkQubit engine n q
    pure [NInstr.h q]
  else if ty = "x" ∨ ty = "pauli_x" then
    let q ← pyIdx qs 0
    let q ← chkQubit engine n q
    pure [NInstr.x q]
  else if ty = "y" ∨ ty = "pauli_y" then
    let q ← pyIdx qs 0
    let q ← chkQubit engine n q
    pure [NInstr.y q]
  else if ty = "z" ∨ ty = "pauli_z" then
    let q ← pyIdx qs 0
    let q ← chkQubit engine n q
    pure [NInstr.z q]
  else if ty = "s" then
    let q ← pyIdx qs 0
    let q ← chkQubit engine n q
    pure [NInstr.s q]
  else if ty = "t" then
    let q ← pyIdx qs 0
    let q ← chkQubit engine n q
    pure [NInstr.t q]
  else if ty = "rx" then
    let p ← pyIdx ps 0
    let q ← pyIdx qs 0
    let q ← chkQubit engine n q
    pure [NInstr.rx p q]
  else if ty = "ry" then
    let p ← pyIdx ps 0
    let q ← pyIdx qs 0
    let q ← chkQubit engine n q
    pure [NInstr.ry p q]
  else if ty = "rz" then
    let p ← pyIdx ps 0
    let q ← pyIdx qs 0
    let q ← chkQubit engine n q
    pure [NInstr.rz p q]
  else if ty = "cx" ∨ ty = "cnot" then
    let a ← pyIdx qs 0
    let b ← pyIdx qs 1
    let a ← chkQubit engine n a
    let b ← chkQubit engine n b
    let _ ← chkDistinct engine [a, b]
    pure [NInstr.cx a b]
  else if ty = "cz" then
    let a ← pyIdx qs 0
    let b ← pyIdx qs 1
    let a ← chkQubit engine n a
    let b ← chkQubit engine n b
    let _ ← chkDistinct engine [a, b]
    pure [NInstr.cz a b]
  else if ty = "swap" then
    let a ← pyIdx qs 0
    let b ← pyIdx qs 1
    let a ← chkQubit engine n a
    let b ← chkQubit engine n b
    let _ ← chkDistinct engine [a, b]
    pure [NInstr.swap a b]
  else if ty = "cp" then
    let p ← pyIdx ps 0
    let a ← pyIdx qs 0
    let b ← pyIdx qs 1
    let a ← chkQubit engine n a
    let b ← chkQubit engine n b
    let _ ← chkDistinct engine [a, b]
    pure [NInstr.cp p a b]
  else if ty = "ccx" ∨ ty = "toffoli" then
    let a ← pyIdx qs 0
    let b ← pyIdx qs 1
    let c ← pyIdx qs 2
    let a ← chkQubit engine n a
    let b ← chkQubit engine n b
    let c ← chkQubit engine n c
    let _ ← chkDistinct engine [a, b, c]
    pure [NInstr.ccx a b c]
  else
    pure []

/-- Qiskit instance of the dispatch chain (qiskit_backend.py:22-61). -/
def qiskitGateInstr (n : Nat) (g : GateOp) : Except String (List NInstr) :=
  gateChainWithCP "qiskit" n g

/-- QiskitBackend.create_circuit (qiskit_backend.py:18-67): dispatch each
    gate in order, then measure_all iff the measure key (default true). -/
def qiskit_create_circuit (n : Nat) (d : CircuitDef) :
    Except String NativeCircuit := do
  let instrs ← d.gatesD.foldlM
    (fun acc g => do pure (acc ++ (← qiskitGateInstr n g))) ([] : List NInstr)
  let instrs := if d.measureD then instrs ++ [NInstr.measureAll] else instrs
  pure { num_qubits := n, instrs := instrs }

/-- Gate dispatch chain shared by CirqBackend.create_circuit
    (cirq_backend.py:21-56) and PyTKETBackend.create_circuit
    (pytket_backend.py:21-56), which are textually parallel: same chain
    shape as the Qiskit one but with no controlled-phase branch; qubit
    operands are validated against the n available qubits and rejected
    when duplicated within one gate; a non-matching gate type
    contributes nothing. -/
def gateChainNoCP (engine : String) (n : Nat) (g : GateOp) :
    Except String (List NInstr) := do
  let ty := pyLower g.type
  let qs := g.qubits
  let ps := g.params
  if ty = "h" ∨ ty = "hadamard" then
    let q ← pyIdx qs 0
    let q ← chkQubit engine n q
    pure [NInstr.h q]
  else if ty = "x" ∨ ty = "pauli_x" then
    let q ← pyIdx qs 0
    let q ← chkQubit engine n q
    pure [NInstr.x q]
  else if ty = "y" ∨ ty = "pauli_y" then
    let q ← pyIdx qs 0
    let q ← chkQubit engine n q
    pure [NInstr.y q]
  else if ty = "z" ∨ ty = "pauli_z" then
    let q ← pyIdx qs 0
    let q ← chkQubit engine n q
    pure [NInstr.z q]
  else if ty = "s" then
    let q ← pyIdx qs 0
    let q ← chkQubit engine n q
    pure [NInstr.s q]
  else if ty = "t" then
    let q ← pyIdx qs 0
    let q ← chkQubit engine n q
    pure [NInstr.t q]
  else if ty = "rx" then
    let p ← pyIdx ps 0
    let q ← pyIdx qs 0
    let q ← chkQubit engine n q
    pure [NInstr.rx p q]
  else if ty = "ry" then
    let p ← pyIdx ps 0
    let q ← pyIdx qs 0
    let q ← chkQubit engine n q
    pure [NInstr.ry p q]
  else if ty = "rz" then
    let p ← pyIdx ps 0
    let q ← pyIdx qs 0
    let q ← chkQubit engine n q
    pure [NInstr.rz p q]
  else if ty = "cx" ∨ ty = "cnot" then
    let a ← pyIdx qs 0
    let b ← pyIdx qs 1
    let a ← chkQubit engine n a
    let b ← chkQubit engine n b
    let _ ← chkDistinct engine [a, b]
    pure [NInstr.cx a b]
  else if ty = "cz" then
    let a ← pyIdx qs 0
    let b ← pyIdx qs 1
    let a ← chkQubit engine n a
    let b ← chkQubit engine n b
    let _ ← chkDistinct engine [a, b]
    pure [NInstr.cz a b]
  else if ty = "swap" then
    let a ← pyIdx qs 0
    let b ← pyIdx qs 1
    let a ← chkQubit engine n a
    let b ← chkQubit engine n b
    let _ ← chkDistinct engine [a, b]
    pure [NInstr.swap a b]
  else if ty = "ccx" ∨ ty = "toffoli" then
    let a ← pyIdx qs 0
    let b ← pyIdx qs 1
    let c ← pyIdx qs 2
    let a ← chkQubit engine n a
    let b ← chkQubit engine n b
    let c ← chkQubit engine n c
    let _ ← chkDistinct engine [a, b, c]
    pure [NInstr.ccx a b c]
  else
    pure []

/-- Cirq instance of the dispatch chain (cirq_backend.py:21-56). -/
def cirqGateInstr (n : Nat) (g : GateOp) : Except String (List NInstr) :=
  gateChainNoCP "cirq" n g

/-- PyTKET instance of the dispatch chain (pytket_backend.py:21-56). -/
def pytketGateInstr (n : Nat) (g : GateOp) : Except String (List NInstr) :=
  gateChainNoCP "pytket" n g

/-- PennyLane instance of the dispatch chain (pennylane_backend.py:38-77);
    invoked inside execute_circuit when the qnode runs, with the wire
    count of the device built there. -/
def pennylaneGateInstr (k : Nat) (g : GateOp) : Except String (List NInstr) :=
  gateChainWithCP "pennylane" k g

/-- CirqBackend.create_circuit (cirq_backend.py:16-62): dispatch each
    gate, then append cirq.measure over all qubits in ascending index
    order iff the measure key (default true). -/
def cirq_create_circuit (n : Nat) (d : CircuitDef) :
    Except String NativeCircuit := do
  let instrs ← d.gatesD.foldlM
    (fun acc g => do pure (acc ++ (← cirqGateInstr n g))) ([] : List NInstr)
  let instrs := if d.measureD then instrs ++ [NInstr.measureAll] else instrs
  pure { num_qubits := n, instrs := instrs }

/-- PyTKETBackend.create_circuit (pytket_backend.py:17-62): same chain
    shape as Cirq (no controlled-phase branch), then measure_all. -/
def pytket_create_circuit (n : Nat) (d : CircuitDef) :
    Except String NativeCircuit := do
  let instrs ← d.gatesD.foldlM
    (fun acc g => do pure (acc ++ (← pytketGateInstr n g))) ([] : List NInstr)
  let instrs := if d.measureD then instrs ++ [NInstr.measureAll] else instrs
  pure { num_qubits := n, instrs := instrs }

/-- Classical (computational-basis) semantics of one native instruction,
    defined exactly on the deterministic fragment the claims exercise:
    x, cx, swap, ccx permute basis states, and a measurement leaves the
    classical outcome unchanged.  none marks instructions outside the
    modelled fragment (superposition-creating or phase gates). -/
def NInstr.classicalStep : NInstr → Option ((Nat → Bool) → (Nat → Bool))
  | NInstr.x q => some (fun f i => if i = q then !(f i) else f i)
  | NInstr.cx a b => some (fun f i => if i = b then xor (f a) (f i) else f i)
  | NInstr.swap a b =>
      some (fun f i => if i = a then f b else if i = b then f a else f i)
  | NInstr.ccx a b c =>
      some (fun f i => if i = c then xor (f a && f b) (f i) else f i)
  | NInstr.measureAll => some (fun f => f)
  | _ => none

/-- Run a native instruction list classically from the all-zero state;
    some f means every shot of the external simulator measures qubit i
    as f i. -/
def classicalRun (instrs : List NInstr) : Option (Nat → Bool) :=
  instrs.foldlM
    (fun f ins => (NInstr.classicalStep ins).map (fun step => step f))
    (fun _ => false)

/-- Character for one measured bit, as produced by str(int(b)). -/
def bitChar (b : Bool) : Char := if b then Char.ofNat 49 else Char.ofNat 48

/-- Canonical big-endian bit-string: character i is the measured value of
    qubit i (the normalization target of spec section 4.2). -/
def canonStr (n : Nat) (f : Nat → Bool) : String :=
  String.mk ((List.range n).map (fun i => bitChar (f i)))

/-- Qiskit native little-endian outcome key: the rightmost character is
    qubit 0 (documented in qiskit_backend.py:88). -/
def littleStr (n : Nat) (f : Nat → Bool) : String :=
  String.mk (((List.range n).map (fun i => bitChar (f i))).reverse)

/-- Python string slice s[::-1] (qiskit_backend.py:89). -/
def strRev (s : String) : String := String.mk s.data.reverse

/-- Join one measurement row into a bit-string, one character per qubit in
    row order: the join in cirq_backend.py:80, pennylane_backend.py:92 and
    pytket_backend.py:85. -/
def rowKey (row : List Bool) : String := String.mk (row.map bitChar)

/-- counts[bitstring] = counts.get(bitstring, 0) + 1
    (cirq_backend.py:81, pennylane_backend.py:93). -/
def bumpCount (counts : List (String × Nat)) (k : String) :
    List (String × Nat) :=
  if (pyLookup counts k).isSome then
    counts.map (fun p => if p.1 = k then (p.1, p.2 + 1) else p)
  else counts ++ [(k, 1)]

/-- Fold per-shot measurement rows into a counts dict
    (cirq_backend.py:78-81, pennylane_backend.py:90-93). -/
def rowsToCounts (rows : List (List Bool)) : List (String × Nat) :=
  rows.foldl (fun acc r => bumpCount acc (rowKey r)) []

/-- Result metadata dict: requested shot count and success flag. -/
structure Metadata where
  shots : Nat
  success : Bool
  deriving DecidableEq, Repr

/-- CircuitResult (backends/base.py:17-28) restricted to the fields the
    claims are about; statevector / expectation_values are never set by
    any adapter, and execution_time / raw_result are outside the
    embedding (wall-clock time, opaque native object). -/
structure CircuitResult where
  backend : String
  counts : Option (List (String × Nat)) := none
  probabilities : Option (List (String × Rat)) := none
  metadata : Option Metadata := none
  error : Option String := none
  deriving DecidableEq, Repr

/-- CircuitResult built in the except-branch of execute_circuit in
    every adapter: error string set, success false, no counts. -/
def errResult (name : String) (shots : Nat) (e : String) : CircuitResult :=
  { backend := name, error := some e
    metadata := some { shots := shots, success := false } }

/-- Shared tail of execute_circuit in every adapter: derive probabilities
    as count/total over the formatted counts and build the success
    result (qiskit_backend.py:91-102, cirq_backend.py:83-94,
    pennylane_backend.py:95-105, pytket_backend.py:88-99).  In Python the
    per-entry division raises ZeroDivisionError when the dict is
    non-empty with zero total, which the surrounding try converts into
    the error result. -/
def finishCounts (name : String) (shots : Nat) (fc : List (String × Nat)) :
    CircuitResult :=
  if fc ≠ [] ∧ (fc.map Prod.snd).sum = 0 then
    errResult name shots "division by zero"
  else
    { backend := name
      counts := some fc
      probabilities := some (fc.map
        (fun p => (p.1, (p.2 : Rat) / (((fc.map Prod.snd).sum : Nat) : Rat))))
      metadata := some { shots := shots, success := true } }

/-- QiskitBackend.execute_circuit result handling (qiskit_backend.py:69-109)
    as a function of the native get_counts outcome: an engine exception is
    caught into the error result; otherwise every native key is reversed
    (little-endian to big-endian, qiskit_backend.py:87-89) and the shared
    probability derivation runs. -/
def qiskit_execute_core (shots : Nat)
    (native : Except String (List (String × Nat))) : CircuitResult :=
  match native with
  | Except.error e => errResult "qiskit" shots e
  | Except.ok counts =>
      finishCounts "qiskit" shots (counts.map (fun p => (strRev p.1, p.2)))

/-- CirqBackend.execute_circuit result handling (cirq_backend.py:64-101)
    as a function of the native measurement rows: rows are joined in
    qubit order (no reversal) and folded into counts. -/
def cirq_execute_core (shots : Nat)
    (native : Except String (List (List Bool))) : CircuitResult :=
  match native with
  | Except.error e => errResult "cirq" shots e
  | Except.ok rows => finishCounts "cirq" shots (rowsToCounts rows)

/-- PennyLaneBackend.execute_circuit result handling
    (pennylane_backend.py:86-112) as a function of the sample rows:
    identical counts fold to Cirq. -/
def pennylane_execute_core (shots : Nat)
    (native : Except String (List (List Bool))) : CircuitResult :=
  match native with
  | Except.error e => errResult "pennylane" shots e
  | Except.ok rows => finishCounts "pennylane" shots (rowsToCounts rows)

/-- PyTKETBackend.execute_circuit result handling (pytket_backend.py:64-106)
    as a function of the native outcome-tuple counts: each tuple is joined
    in qubit order into a key. -/
def pytket_execute_core (shots : Nat)
    (native : Except String (List (List Bool × Nat))) : CircuitResult :=
  match native with
  | Except.error e => errResult "pytket" shots e
  | Except.ok oc =>
      finishCounts "pytket" shots (oc.map (fun p => (rowKey p.1, p.2)))

/-- Model of the external Aer simulator on the deterministic classical
    fragment: a measured circuit whose classical run is f yields the
    single native little-endian key with all shots (qubit 0 rightmost,
    per the source comment at qiskit_backend.py:88).  none = outside the
    modelled fragment. -/
def qiskitNative (c : NativeCircuit) (shots : Nat) :
    Option (List (String × Nat)) :=
  if NInstr.measureAll ∈ c.instrs then
    (classicalRun c.instrs).map
      (fun f => [(littleStr c.num_qubits f, shots)])
  else none

/-- Model of the external Cirq simulator on the same fragment: shots
    identical measurement rows, one entry per qubit in ascending index
    order (the order the qubits were passed to cirq.measure). -/
def cirqNative (c : NativeCircuit) (shots : Nat) :
    Option (List (List Bool)) :=
  if NInstr.measureAll ∈ c.instrs then
    (classicalRun c.instrs).map
      (fun f => List.replicate shots ((List.range c.num_qubits).map f))
  else none

/-- Model of the external PyTKET Aer backend on the same fragment: one
    outcome tuple, qubit 0 first, carrying all shots. -/
def pytketNative (c : NativeCircuit) (shots : Nat) :
    Option (List (List Bool × Nat)) :=
  if NInstr.measureAll ∈ c.instrs then
    (classicalRun c.instrs).map
      (fun f => [((List.range c.num_qubits).map f, shots)])
  else none

/-- QiskitBackend.execute_circuit (qiskit_backend.py:69-109) composed with
    the Aer model: first the measurement fix (lines 74-78: when the
    circuit has no measure operation, work on a copy with measure_all
    appended), then simulate and format. -/
def qiskit_execute_model (c : NativeCircuit) (shots : Nat) :
    Option CircuitResult :=
  let c2 := if NInstr.measureAll ∈ c.instrs then c
            else { c with instrs := c.instrs ++ [NInstr.measureAll] }
  (qiskitNative c2 shots).map (fun nc => qiskit_execute_core shots (Except.ok nc))

/-- CirqBackend.execute_circuit composed with the Cirq simulator model
    (no measurement fix in the Cirq adapter). -/
def cirq_execute_model (c : NativeCircuit) (shots : Nat) :
    Option CircuitResult :=
  (cirqNative c shots).map (fun rows => cirq_execute_core shots (Except.ok rows))

/-- PyTKETBackend.execute_circuit composed with the PyTKET model. -/
def pytket_execute_model (c : NativeCircuit) (shots : Nat) :
    Option CircuitResult :=
  (pytketNative c shots).map (fun oc => pytket_execute_core shots (Except.ok oc))

/-- Mutable attributes the PennyLane adapter keeps on itself across calls
    (pennylane_backend.py:19-21); none models the attribute never having
    been assigned. -/
structure PennyLaneState where
  last_num_qubits : Option Nat := none
  last_circuit_def : Option CircuitDef := none
  deriving DecidableEq, Repr

/-- PennyLaneBackend.create_circuit (pennylane_backend.py:17-22): stores
    the definition and qubit count on the adapter and returns the
    definition itself as the circuit object. -/
def pennylane_create_circuit (_st : PennyLaneState) (n : Nat) (d : CircuitDef) :
    PennyLaneState × CircuitDef :=
  ({ last_num_qubits := some n, last_circuit_def := some d }, d)

/-- PennyLaneBackend.execute_circuit (pennylane_backend.py:24-112)
    composed with the lightning.qubit model on the classical fragment:
    the wire count comes from self.last_num_qubits, not from the circuit
    argument; the qnode replays the gate dicts through the dispatch
    chain, and qml.sample() returns shots rows over all device wires.
    An unset attribute or a dispatch failure is caught into the error
    result; none = circuit outside the modelled classical fragment.
    The ndim-1 reshape special case of pennylane_backend.py:87-88
    (reached when the device has a single wire) is not modelled: the
    row-per-shot shape used here is faithful for devices with at least
    two wires. -/
def pennylane_execute_model (st : PennyLaneState) (circuit : CircuitDef)
    (shots : Nat) : Option CircuitResult :=
  match st.last_num_qubits with
  | none =>
      some (errResult "pennylane" shots
        "AttributeError: PennyLaneBackend object has no attribute last_num_qubits")
  | some k =>
      match circuit.gatesD.foldlM
        (fun acc g => do pure (acc ++ (← pennylaneGateInstr k g)))
        ([] : List NInstr) with
      | Except.error e => some (errResult "pennylane" shots e)
      | Except.ok instrs =>
          (classicalRun instrs).map (fun f =>
            pennylane_execute_core shots
              (Except.ok (List.replicate shots ((List.range k).map f))))

/-- Gate list of the Bell-pair tool create_bell_state (server.py:343-346). -/
def bell_state_gates : List GateOp :=
  [{ type := "h", qubits := [0], params := [] },
   { type := "cx", qubits := [0, 1], params := [] }]

/-- Gate list built by create_ghz_state (server.py:372-376): one Hadamard
    on qubit 0 then a controlled-NOT from qubit 0 to each i in
    range(1, num_qubits). -/
def ghz_state_gates (n : Nat) : List GateOp :=
  { type := "h", qubits := [0], params := [] } ::
    (List.range' 1 (n - 1)).map
      (fun i => { type := "cx", qubits := [0, i], params := [] })

/-- create_ghz_state (server.py:357-383) up to the point the gate list is
    handed to execute_circuit: fewer than 2 qubits is rejected with the
    error response of line 370, otherwise the deterministic gate list is
    produced. -/
def create_ghz_state (n : Nat) : Except String (List GateOp) :=
  if n < 2 then Except.error "GHZ state requires at least 2 qubits"
  else Except.ok (ghz_state_gates n)

/-- prob.get(state, 0) over a probabilities dict (server.py:309). -/
def probGet (ps : List (String × Rat)) (s : String) : Rat :=
  (pyLookup ps s).getD 0

/-- Key set of a probabilities dict, as a finite set of bit-strings. -/
def keysFinset (ps : List (String × Rat)) : Finset String :=
  (ps.map Prod.fst).toFinset

/-- Cross-engine similarity metric (server.py:307-311): the sum over the
    union of the observed bit-strings of the pointwise minimum of the two
    probabilities. -/
def similarity (p1 p2 : List (String × Rat)) : Rat :=
  Finset.sum (keysFinset p1 ∪ keysFinset p2)
    (fun st => min (probGet p1 st) (probGet p2 st))

/-- Validity of a probabilities dict of a successful result: unique keys,
    positive values (a counts dict never stores a zero count), total
    probability one. -/
def IsProbDist (ps : List (String × Rat)) : Prop :=
  (ps.map Prod.fst).Nodup ∧ (∀ p ∈ ps, 0 < p.2) ∧
    (ps.map Prod.snd).sum = 1

instance (ps : List (String × Rat)) : Decidable (IsProbDist ps) := by
  unfold IsProbDist; infer_instance

/-- Outcome of one engine in the body of the execute_multi_backend loop
    (server.py:279-295): the try-block either raises (create_circuit or
    an escaping exception), modelled as Except.error, or returns the
    CircuitResult of the adapter.  For the purposes of the orchestrator claim
    the behaviour of each registered engine on the fixed request is an
    arbitrary value of this type. -/
def EngineOutcome : Type := Except String CircuitResult

/-- Accumulated results and errors dicts of execute_multi_backend. -/
structure MultiAcc where
  results : List (String × CircuitResult)
  errors : List (String × String)
  deriving DecidableEq, Repr

/-- One iteration of the execute_multi_backend loop (server.py:274-295):
    an unknown engine id is recorded under errors as the
    backend-not-available message; a raised exception is recorded under
    errors; a returned result is filed by the Python truthiness test on
    its error field (server.py:285): a nonempty error string goes under
    errors, while a result without error — or with an EMPTY error
    string, which is falsy in Python — goes under results. -/
def multiStep (registry : List (String × EngineOutcome)) (acc : MultiAcc)
    (name : String) : MultiAcc :=
  match pyLookup registry name with
  | none => { acc with errors := dictInsert acc.errors name "Backend not available" }
  | some (Except.error e) =>
      { acc with errors := dictInsert acc.errors name e }
  | some (Except.ok r) =>
      match r.error with
      | some e =>
          if e = "" then { acc with results := dictInsert acc.results name r }
          else { acc with errors := dictInsert acc.errors name e }
      | none => { acc with results := dictInsert acc.results name r }

/-- execute_multi_backend (server.py:252-328) up to the results/errors
    dicts: fold the loop body over the requested engine ids. -/
def execute_multi_backend (registry : List (String × EngineOutcome))
    (names : List String) : MultiAcc :=
  names.foldl (multiStep registry) { results := [], errors := [] }

/-- Error entry the loop will record for a requested engine id, as a
    function of the registry alone. -/
def expectedError (registry : List (String × EngineOutcome))
    (name : String) : Option String :=
  match pyLookup registry name with
  | none => some "Backend not available"
  | some (Except.error e) => some e
  | some (Except.ok r) =>
      match r.error with
      | some e => if e = "" then none else some e
      | none => none

/-- Results entry the loop will record for a requested engine id, as a
    function of the registry alone. -/
def expectedResult (registry : List (String × EngineOutcome))
    (name : String) : Option CircuitResult :=
  match pyLookup registry name with
  | some (Except.ok r) =>
      match r.error with
      | some e => if e = "" then some r else none
      | none => some r
  | _ => none

/-- QiskitBackend.execute_circuit with the circuit object of the caller made
    explicit as a store entry, to express the copy discipline of
    qiskit_backend.py:74-78: when the circuit lacks a measurement the
    adapter works on circuit.copy() with measure_all() applied to the
    copy (a fresh object, here appended to the store), leaving the
    object of the caller untouched. -/
def qiskit_execute_with_store (store : List NativeCircuit)
    (i : Fin store.length) (shots : Nat) :
    List NativeCircuit × Option CircuitResult :=
  let c := store.get i
  if NInstr.measureAll ∈ c.instrs then
    (store, (qiskitNative c shots).map
      (fun nc => qiskit_execute_core shots (Except.ok nc)))
  else
    (store ++ [{ num_qubits := c.num_qubits,
                 instrs := c.instrs ++ [NInstr.measureAll] }],
      (qiskitNative { num_qubits := c.num_qubits,
                      instrs := c.instrs ++ [NInstr.measureAll] } shots).map
        (fun nc => qiskit_execute_core shots (Except.ok nc)))

/-- The bit-ordering test circuit of spec section 8: a single X gate on
    qubit 0 of a 2-qubit circuit, with measurement. -/
def xTestDef : CircuitDef :=
  { gates := some [{ type := "x", qubits := [0], params := [] }],
    measure := some true }

/-! Theorems -/

/-- Any gate type outside the Qiskit/PennyLane dispatch table falls
    through the whole if/elif chain and contributes no instruction. -/
lemma gateChainWithCP_unknown (engine : String) (n : Nat) (g : GateOp)
    (ht : pyLower g.type ∉ qiskitGateNames) :
    gateChainWithCP engine n g = Except.ok [] := by
  simp only [qiskitGateNames, List.mem_cons, List.not_mem_nil, or_false,
    not_or] at ht
  obtain ⟨h1, h2, h3, h4, h5, h6, h7, h8, h9, h10, h11, h12, h13, h14,
    h15, h16, h17, h18, h19, h20⟩ := ht
  simp [gateChainWithCP, h1, h2, h3, h4, h5, h6, h7, h8, h9, h10, h11,
    h12, h13, h14, h15, h16, h17, h18, h19, h20, pure, Except.pure]

/-- Any gate type outside the Cirq/PyTKET dispatch table falls through
    the whole if/elif chain and contributes no instruction. -/
lemma gateChainNoCP_unknown (engine : String) (n : Nat) (g : GateOp)
    (ht : pyLower g.type ∉ cirqGateNames) :
    gateChainNoCP engine n g = Except.ok [] := by
  simp only [cirqGateNames, List.mem_cons, List.not_mem_nil, or_false,
    not_or] at ht
  obtain ⟨h1, h2, h3, h4, h5, h6, h7, h8, h9, h10, h11, h12, h13, h14,
    h15, h16, h17, h18, h19⟩ := ht
  simp [gateChainNoCP, h1, h2, h3, h4, h5, h6, h7, h8, h9, h10, h11,
    h12, h13, h14, h15, h16, h17, h18, h19, pure, Except.pure]

/-- C2 counterexample: the claim says a gate type outside the dispatch
    table makes translation fail with UnsupportedGateError; on the code,
    translating the single unknown gate "foo" succeeds on both cited
    engines and the resulting native circuit contains no gate at all
    (the gate was silently dropped). -/
theorem unsupported_gate_not_rejected :
    qiskit_create_circuit 1
      { gates := some [{ type := "foo", qubits := [0], params := [] }],
        measure := some true } =
      Except.ok { num_qubits := 1, instrs := [NInstr.measureAll] } ∧
    cirq_create_circuit 1
      { gates := some [{ type := "foo", qubits := [0], params := [] }],
        measure := some true } =
      Except.ok { num_qubits := 1, instrs := [NInstr.measureAll] } :=
  ⟨rfl, rfl⟩

/-- C2 (amended): a GateOp whose lowercased type is not in the dispatch
    table of the engine is silently dropped: create_circuit succeeds and the
    translated native circuit simply omits the gate (no
    UnsupportedGateError exists anywhere in the code). -/
theorem unsupported_gate_silently_dropped (n : Nat) (t : String)
    (qs : List Nat) (ps : List Rat) (m : Bool) :
    (pyLower t ∉ qiskitGateNames →
      qiskit_create_circuit n
        { gates := some [{ type := t, qubits := qs, params := ps }],
          measure := some m } =
        Except.ok { num_qubits := n,
                    instrs := (if m then [NInstr.measureAll] else []) }) ∧
    (pyLower t ∉ cirqGateNames →
      cirq_create_circuit n
        { gates := some [{ type := t, qubits := qs, params := ps }],
          measure := some m } =
        Except.ok { num_qubits := n,
                    instrs := (if m then [NInstr.measureAll] else []) }) := by
  constructor
  · intro ht
    have hdrop := gateChainWithCP_unknown "qiskit" n
      { type := t, qubits := qs, params := ps } ht
    simp [qiskit_create_circuit, CircuitDef.gatesD, CircuitDef.measureD,
      qiskitGateInstr, hdrop, List.foldlM]
  · intro ht
    have hdrop := gateChainNoCP_unknown "cirq" n
      { type := t, qubits := qs, params := ps } ht
    simp [cirq_create_circuit, CircuitDef.gatesD, CircuitDef.measureD,
      cirqGateInstr, hdrop, List.foldlM]

/-- Witness for the amended C2 theorem: "foo" is dropped by the Qiskit
    adapter and "cp" (absent from the Cirq table though present in the
    Qiskit one) is dropped by the Cirq adapter. -/
theorem unsupported_gate_silently_dropped_witness :
    qiskit_create_circuit 1
      { gates := some [{ type := "foo", qubits := [0], params := [] }],
        measure := some true } =
      Except.ok { num_qubits := 1, instrs := [NInstr.measureAll] } ∧
    cirq_create_circuit 2
      { gates := some [{ type := "cp", qubits := [0, 1], params := [(1 : Rat)/2] }],
        measure := some true } =
      Except.ok { num_qubits := 2, instrs := [NInstr.measureAll] } :=
  ⟨(unsupported_gate_silently_dropped 1 "foo" [0] [] true).1 (by decide),
   (unsupported_gate_silently_dropped 2 "cp" [0, 1] [(1 : Rat)/2] true).2
     (by decide)⟩

/-- C3 counterexample: the claim says building fails with ValidationError
    when num_qubits <= 0; on the code, creating a circuit with
    num_qubits = 0 succeeds without any error. -/
theorem zero_qubits_accepted :
    qiskit_create_circuit 0 { gates := some [], measure := some true } =
      Except.ok { num_qubits := 0, instrs := [NInstr.measureAll] } := rfl

/-- C3 (amended): no ValidationError-style validation happens when a
    circuit is built: validate_circuit_def only reports whether the
    gates key is present (and nothing calls it to reject a request);
    num_qubits = 0 is accepted; an unrecognized gate type is silently
    dropped; and duplicate qubit operands within one gate, a parametric
    gate missing its params, and an out-of-range qubit index surface as
    the native engine exceptions raised during per-engine translation
    (caught per engine), not as an upfront ValidationError. -/
theorem no_build_time_validation :
    (∀ d, validate_circuit_def d = d.gates.isSome) ∧
    (∀ m : Bool, qiskit_create_circuit 0 { gates := some [], measure := some m } =
      Except.ok { num_qubits := 0,
                  instrs := (if m then [NInstr.measureAll] else []) }) ∧
    qiskitGateInstr 2 { type := "cx", qubits := [0, 0], params := [] } =
      Except.error "qiskit: duplicate qubit arguments" ∧
    cirqGateInstr 2 { type := "cx", qubits := [0, 0], params := [] } =
      Except.error "cirq: duplicate qubit arguments" ∧
    qiskitGateInstr 1 { type := "rx", qubits := [0], params := [] } =
      Except.error "IndexError: list index out of range" ∧
    qiskitGateInstr 1 { type := "h", qubits := [5], params := [] } =
      Except.error "qiskit: qubit index out of range" ∧
    (∀ t qs ps, pyLower t ∉ qiskitGateNames →
      qiskitGateInstr 1 { type := t, qubits := qs, params := ps } =
        Except.ok []) := by
  refine ⟨fun d => rfl, fun m => ?_, rfl, rfl, rfl, rfl, fun t qs ps ht => ?_⟩
  · cases m <;> rfl
  · exact gateChainWithCP_unknown "qiskit" 1 _ ht

/-- Witness for the amended C3 theorem at concrete inputs. -/
theorem no_build_time_validation_witness :
    validate_circuit_def { gates := none, measure := some true } = false ∧
    qiskit_create_circuit 0 { gates := some [], measure := some false } =
      Except.ok { num_qubits := 0, instrs := [] } ∧
    qiskitGateInstr 1 { type := "bogus", qubits := [], params := [] } =
      Except.ok [] :=
  ⟨no_build_time_validation.1 _,
   no_build_time_validation.2.1 false,
   no_build_time_validation.2.2.2.2.2.2 "bogus" [] [] (by decide)⟩

/-- C9: the N-qubit entangled-chain generator yields, at N = 2, exactly
    the Bell-pair gate list; for N below 2 it fails with the GHZ
    validation error; and it is a pure deterministic function, so two
    calls with the same argument give structurally identical circuits. -/
theorem ghz_chain_generator_spec :
    create_ghz_state 2 = Except.ok bell_state_gates ∧
    (∀ n, n < 2 → create_ghz_state n =
      Except.error "GHZ state requires at least 2 qubits") ∧
    (∀ n, create_ghz_state n = create_ghz_state n) := by
  refine ⟨rfl, ?_, fun n => rfl⟩
  intro n hn
  unfold create_ghz_state
  rw [if_pos hn]

/-- Witness for C9 at N = 1, the case the claim singles out. -/
theorem ghz_chain_generator_spec_witness :
    create_ghz_state 1 = Except.error "GHZ state requires at least 2 qubits" :=
  ghz_chain_generator_spec.2.1 1 (by decide)

/-- The shared probability-derivation tail either reports the
    division-by-zero failure or yields the fully populated success
    result. -/
lemma finishCounts_shape (name : String) (shots : Nat)
    (fc : List (String × Nat)) :
    finishCounts name shots fc = errResult name shots "division by zero" ∨
    finishCounts name shots fc =
      { backend := name, counts := some fc,
        probabilities := some (fc.map
          (fun p => (p.1, (p.2 : Rat) / (((fc.map Prod.snd).sum : Nat) : Rat)))),
        metadata := some { shots := shots, success := true } } := by
  unfold finishCounts
  split
  · exact Or.inl rfl
  · exact Or.inr rfl

/-- Core shape of the execute_circuit boundary of every adapter: a caught
    native exception gives exactly the error result, and the returned
    record populates either the success fields or the error field, never
    both. -/
lemma boundary_props {α : Type} (name : String) (shots : Nat)
    (fmt : α → List (String × Nat)) (native : Except String α)
    (r : CircuitResult)
    (hr : r = match native with
      | Except.error e => errResult name shots e
      | Except.ok v => finishCounts name shots (fmt v)) :
    (∀ e, native = Except.error e → r = errResult name shots e) ∧
    (r.error = none → r.counts.isSome ∧ r.probabilities.isSome ∧
      r.metadata = some { shots := shots, success := true }) ∧
    (r.error.isSome → r.counts = none ∧ r.probabilities = none ∧
      r.metadata = some { shots := shots, success := false }) := by
  subst hr
  cases native with
  | error e =>
      refine ⟨fun e2 he => by simp_all, ?_, ?_⟩
      · intro h; simp [errResult] at h
      · intro _; exact ⟨rfl, rfl, rfl⟩
  | ok v =>
      dsimp only
      refine ⟨fun e2 he => by simp_all, ?_, ?_⟩
      · intro h
        rcases finishCounts_shape name shots (fmt v) with hs | hs <;>
          rw [hs] at h ⊢
        · simp [errResult] at h
        · exact ⟨by simp, by simp, rfl⟩
      · intro h
        rcases finishCounts_shape name shots (fmt v) with hs | hs <;>
          rw [hs] at h ⊢
        · exact ⟨rfl, rfl, rfl⟩
        · simp at h

/-- C4: for the cited adapters (Qiskit, PennyLane), a native-engine
    exception never propagates: it yields a CircuitResult whose error is
    the exception text, whose metadata has success = false and whose
    counts and probabilities are absent; conversely a result without
    error carries counts, probabilities and success = true — exactly one
    of the success fields and the error field is ever populated.
    (Totality of the Lean functions models the try/except wrapper: every
    native outcome, exceptional or not, maps to a CircuitResult.) -/
theorem adapter_error_boundary (shots : Nat)
    (nq : Except String (List (String × Nat)))
    (np : Except String (List (List Bool))) :
    ((∀ e, nq = Except.error e →
       qiskit_execute_core shots nq = errResult "qiskit" shots e) ∧
     ((qiskit_execute_core shots nq).error = none →
       (qiskit_execute_core shots nq).counts.isSome ∧
       (qiskit_execute_core shots nq).probabilities.isSome ∧
       (qiskit_execute_core shots nq).metadata =
         some { shots := shots, success := true }) ∧
     ((qiskit_execute_core shots nq).error.isSome →
       (qiskit_execute_core shots nq).counts = none ∧
       (qiskit_execute_core shots nq).probabilities = none ∧
       (qiskit_execute_core shots nq).metadata =
         some { shots := shots, success := false })) ∧
    ((∀ e, np = Except.error e →
       pennylane_execute_core shots np = errResult "pennylane" shots e) ∧
     ((pennylane_execute_core shots np).error = none →
       (pennylane_execute_core shots np).counts.isSome ∧
       (pennylane_execute_core shots np).probabilities.isSome ∧
       (pennylane_execute_core shots np).metadata =
         some { shots := shots, success := true }) ∧
     ((pennylane_execute_core shots np).error.isSome →
       (pennylane_execute_core shots np).counts = none ∧
       (pennylane_execute_core shots np).probabilities = none ∧
       (pennylane_execute_core shots np).metadata =
         some { shots := shots, success := false })) :=
  ⟨boundary_props "qiskit" shots
     (fun counts => counts.map (fun p => (strRev p.1, p.2))) nq
     (qiskit_execute_core shots nq) (by cases nq <;> rfl),
   boundary_props "pennylane" shots (fun rows => rowsToCounts rows) np
     (pennylane_execute_core shots np) (by cases np <;> rfl)⟩

/-- Witness for C4: a concrete raised exception becomes the error
    result, and a concrete successful run carries counts. -/
theorem adapter_error_boundary_witness :
    qiskit_execute_core 7 (Except.error "boom") = errResult "qiskit" 7 "boom" ∧
    ((pennylane_execute_core 7 (Except.ok [[true]])).counts.isSome ∧
     (pennylane_execute_core 7 (Except.ok [[true]])).probabilities.isSome ∧
     (pennylane_execute_core 7 (Except.ok [[true]])).metadata =
       some { shots := 7, success := true }) :=
  ⟨(adapter_error_boundary 7 (Except.error "boom") (Except.ok [[true]])).1.1
     "boom" rfl,
   (adapter_error_boundary 7 (Except.error "boom") (Except.ok [[true]])).2.2.1
     (by rfl)⟩

/-- A dict lookup fails exactly when the key is absent. -/
lemma pyLookup_eq_none_iff {α : Type} (m : List (String × α)) (k : String) :
    pyLookup m k = none ↔ k ∉ m.map Prod.fst := by
  induction m with
  | nil => simp [pyLookup]
  | cons p rest ih =>
      by_cases h : p.1 = k
      · simp [pyLookup, h]
      · have h2 : ¬(k = p.1) := fun he => h he.symm
        simp [pyLookup, h, h2, ih]

/-- A successful dict lookup returns an entry of the dict. -/
lemma pyLookup_mem {α : Type} {m : List (String × α)} {k : String} {v : α}
    (h : pyLookup m k = some v) : (k, v) ∈ m := by
  induction m with
  | nil => simp [pyLookup] at h
  | cons p rest ih =>
      by_cases hp : p.1 = k
      · rw [pyLookup, if_pos hp] at h
        have hpv : p = (k, v) := by
          cases p with
          | mk a b => cases h; cases hp; rfl
        rw [← hpv]
        exact List.mem_cons_self _ _
      · rw [pyLookup, if_neg hp] at h
        exact List.mem_cons_of_mem _ (ih h)

/-- prob.get(state, 0) of a positive-valued dict is nonnegative. -/
lemma probGet_nonneg (ps : List (String × Rat))
    (hpos : ∀ p ∈ ps, 0 < p.2) (s : String) : 0 ≤ probGet ps s := by
  unfold probGet
  cases hl : pyLookup ps s with
  | none => simp
  | some v => simpa using le_of_lt (hpos _ (pyLookup_mem hl))

/-- prob.get(state, 0) defaults to zero off the key set. -/
lemma probGet_eq_zero_of_not_mem (ps : List (String × Rat)) (s : String)
    (h : s ∉ ps.map Prod.fst) : probGet ps s = 0 := by
  unfold probGet
  rw [(pyLookup_eq_none_iff ps s).mpr h]
  rfl

/-- With positive values, prob.get(state, 0) is positive exactly on the
    key set. -/
lemma probGet_pos_iff_mem (ps : List (String × Rat))
    (hpos : ∀ p ∈ ps, 0 < p.2) (s : String) :
    0 < probGet ps s ↔ s ∈ ps.map Prod.fst := by
  constructor
  · intro h
    by_contra hnm
    rw [probGet_eq_zero_of_not_mem ps s hnm] at h
    exact lt_irrefl 0 h
  · intro hm
    unfold probGet
    cases hl : pyLookup ps s with
    | none => exact absurd hm (by simpa using (pyLookup_eq_none_iff ps s).mp hl)
    | some v => simpa using hpos _ (pyLookup_mem hl)

/-- Summing prob.get over the key set of a unique-keyed dict recovers the
    sum of the stored values. -/
lemma sum_probGet (ps : List (String × Rat))
    (hnd : (ps.map Prod.fst).Nodup) :
    Finset.sum (keysFinset ps) (probGet ps) = (ps.map Prod.snd).sum := by
  induction ps with
  | nil => simp [keysFinset, probGet, pyLookup]
  | cons p rest ih =>
      have hnm : p.1 ∉ rest.map Prod.fst := (List.nodup_cons.mp hnd).1
      have hnd2 : (rest.map Prod.fst).Nodup := (List.nodup_cons.mp hnd).2
      have hins : keysFinset (p :: rest) = insert p.1 (keysFinset rest) := by
        simp [keysFinset]
      rw [hins, Finset.sum_insert (by
        simpa [keysFinset, List.mem_toFinset] using hnm)]
      have hself : probGet (p :: rest) p.1 = p.2 := by
        unfold probGet pyLookup
        rw [if_pos rfl]
        rfl
      have hcongr : Finset.sum (keysFinset rest) (probGet (p :: rest)) =
          Finset.sum (keysFinset rest) (probGet rest) := by
        refine Finset.sum_congr rfl (fun s hs => ?_)
        have hsne : ¬(p.1 = s) := by
          intro he
          exact hnm (by simpa [keysFinset, List.mem_toFinset, ← he] using hs)
        have hstep : pyLookup (p :: rest) s = pyLookup rest s := by
          simp only [pyLookup]
          rw [if_neg hsne]
        unfold probGet
        rw [hstep]
      rw [hself, hcongr, ih hnd2]
      simp

/-- Summing prob.get over any superset of the key set gives total
    probability: the default is zero off the keys. -/
lemma sum_probGet_superset (ps : List (String × Rat))
    (hnd : (ps.map Prod.fst).Nodup) (u : Finset String)
    (hu : keysFinset ps ⊆ u) :
    Finset.sum u (probGet ps) = (ps.map Prod.snd).sum := by
  rw [← sum_probGet ps hnd]
  exact (Finset.sum_subset hu (fun x _ hnx =>
    probGet_eq_zero_of_not_mem ps x
      (by simpa [keysFinset, List.mem_toFinset] using hnx))).symm

/-- C5: the similarity metric of two successful results lies in [0, 1],
    is symmetric, equals 1 exactly when the two probability functions
    agree on every bit-string, and equals 0 exactly when the two key
    sets are disjoint. -/
theorem similarity_metric_spec (p1 p2 : List (String × Rat))
    (h1 : IsProbDist p1) (h2 : IsProbDist p2) :
    0 ≤ similarity p1 p2 ∧ similarity p1 p2 ≤ 1 ∧
    similarity p1 p2 = similarity p2 p1 ∧
    (similarity p1 p2 = 1 ↔ ∀ s, probGet p1 s = probGet p2 s) ∧
    (similarity p1 p2 = 0 ↔ keysFinset p1 ∩ keysFinset p2 = ∅) := by
  obtain ⟨hnd1, hpos1, hsum1⟩ := h1
  obtain ⟨hnd2, hpos2, hsum2⟩ := h2
  have hnn1 := probGet_nonneg p1 hpos1
  have hnn2 := probGet_nonneg p2 hpos2
  have hU1 : Finset.sum (keysFinset p1 ∪ keysFinset p2) (probGet p1) = 1 := by
    rw [sum_probGet_superset p1 hnd1 _ Finset.subset_union_left, hsum1]
  have hU2 : Finset.sum (keysFinset p1 ∪ keysFinset p2) (probGet p2) = 1 := by
    rw [sum_probGet_superset p2 hnd2 _ Finset.subset_union_right, hsum2]
  have hminle1 : ∀ s ∈ keysFinset p1 ∪ keysFinset p2,
      min (probGet p1 s) (probGet p2 s) ≤ probGet p1 s :=
    fun s _ => min_le_left _ _
  have hminle2 : ∀ s ∈ keysFinset p1 ∪ keysFinset p2,
      min (probGet p1 s) (probGet p2 s) ≤ probGet p2 s :=
    fun s _ => min_le_right _ _
  have hminnn : ∀ s ∈ keysFinset p1 ∪ keysFinset p2,
      0 ≤ min (probGet p1 s) (probGet p2 s) :=
    fun s _ => le_min (hnn1 s) (hnn2 s)
  refine ⟨Finset.sum_nonneg hminnn, ?_, ?_, ?_, ?_⟩
  · calc similarity p1 p2
        ≤ Finset.sum (keysFinset p1 ∪ keysFinset p2) (probGet p1) :=
          Finset.sum_le_sum hminle1
      _ = 1 := hU1
  · unfold similarity
    rw [Finset.union_comm]
    exact Finset.sum_congr rfl (fun s _ => min_comm _ _)
  · constructor
    · intro hone
      have he1 : ∀ s ∈ keysFinset p1 ∪ keysFinset p2,
          min (probGet p1 s) (probGet p2 s) = probGet p1 s :=
        (Finset.sum_eq_sum_iff_of_le hminle1).mp
          (by rw [hU1]; exact hone)
      have he2 : ∀ s ∈ keysFinset p1 ∪ keysFinset p2,
          min (probGet p1 s) (probGet p2 s) = probGet p2 s :=
        (Finset.sum_eq_sum_iff_of_le hminle2).mp
          (by rw [hU2]; exact hone)
      intro s
      by_cases hs : s ∈ keysFinset p1 ∪ keysFinset p2
      · exact (he1 s hs).symm.trans (he2 s hs)
      · rw [Finset.mem_union, not_or] at hs
        rw [probGet_eq_zero_of_not_mem p1 s
            (by simpa [keysFinset, List.mem_toFinset] using hs.1),
          probGet_eq_zero_of_not_mem p2 s
            (by simpa [keysFinset, List.mem_toFinset] using hs.2)]
    · intro hpt
      unfold similarity
      calc Finset.sum (keysFinset p1 ∪ keysFinset p2)
            (fun s => min (probGet p1 s) (probGet p2 s))
          = Finset.sum (keysFinset p1 ∪ keysFinset p2) (probGet p1) :=
            Finset.sum_congr rfl (fun s _ => by rw [hpt s, min_self])
        _ = 1 := hU1
  · constructor
    · intro hzero
      have hall : ∀ s ∈ keysFinset p1 ∪ keysFinset p2,
          min (probGet p1 s) (probGet p2 s) = 0 :=
        (Finset.sum_eq_zero_iff_of_nonneg hminnn).mp hzero
      rw [Finset.eq_empty_iff_forall_not_mem]
      intro s hs
      rw [Finset.mem_inter] at hs
      have hgt1 : 0 < probGet p1 s :=
        (probGet_pos_iff_mem p1 hpos1 s).mpr
          (by simpa [keysFinset, List.mem_toFinset] using hs.1)
      have hgt2 : 0 < probGet p2 s :=
        (probGet_pos_iff_mem p2 hpos2 s).mpr
          (by simpa [keysFinset, List.mem_toFinset] using hs.2)
      have := hall s (Finset.mem_union_left _ hs.1)
      exact absurd this (ne_of_gt (lt_min hgt1 hgt2))
    · intro hdisj
      unfold similarity
      refine Finset.sum_eq_zero (fun s hs => ?_)
      rw [Finset.mem_union] at hs
      have hz : probGet p1 s = 0 ∨ probGet p2 s = 0 := by
        rcases hs with hs1 | hs2
        · by_cases hs2m : s ∈ keysFinset p2
          · exact absurd (Finset.mem_inter.mpr ⟨hs1, hs2m⟩)
              (by rw [hdisj]; exact Finset.not_mem_empty s)
          · exact Or.inr (probGet_eq_zero_of_not_mem p2 s
              (by simpa [keysFinset, List.mem_toFinset] using hs2m))
        · by_cases hs1m : s ∈ keysFinset p1
          · exact absurd (Finset.mem_inter.mpr ⟨hs1m, hs2⟩)
              (by rw [hdisj]; exact Finset.not_mem_empty s)
          · exact Or.inl (probGet_eq_zero_of_not_mem p1 s
              (by simpa [keysFinset, List.mem_toFinset] using hs1m))
      rcases hz with hz | hz
      · exact le_antisymm (by rw [← hz]; exact min_le_left _ _)
          (le_min (hnn1 s) (hnn2 s))
      · exact le_antisymm (by rw [← hz]; exact min_le_right _ _)
          (le_min (hnn1 s) (hnn2 s))

/-- Witness for C5 on two concrete distributions (the Bell-pair
    distribution against a disjoint single-outcome distribution). -/
theorem similarity_metric_spec_witness :
    IsProbDist [("00", (1 : Rat)/2), ("11", (1 : Rat)/2)] ∧
    IsProbDist [("01", (1 : Rat))] ∧
    (0 ≤ similarity [("00", (1 : Rat)/2), ("11", (1 : Rat)/2)]
        [("01", (1 : Rat))] ∧
      similarity [("00", (1 : Rat)/2), ("11", (1 : Rat)/2)]
        [("01", (1 : Rat))] ≤ 1 ∧
      similarity [("00", (1 : Rat)/2), ("11", (1 : Rat)/2)]
        [("01", (1 : Rat))] =
        similarity [("01", (1 : Rat))]
          [("00", (1 : Rat)/2), ("11", (1 : Rat)/2)] ∧
      (similarity [("00", (1 : Rat)/2), ("11", (1 : Rat)/2)]
          [("01", (1 : Rat))] = 1 ↔
        ∀ s, probGet [("00", (1 : Rat)/2), ("11", (1 : Rat)/2)] s =
          probGet [("01", (1 : Rat))] s) ∧
      (similarity [("00", (1 : Rat)/2), ("11", (1 : Rat)/2)]
          [("01", (1 : Rat))] = 0 ↔
        keysFinset [("00", (1 : Rat)/2), ("11", (1 : Rat)/2)] ∩
          keysFinset [("01", (1 : Rat))] = ∅)) := by
  have hw1 : IsProbDist [("00", (1 : Rat)/2), ("11", (1 : Rat)/2)] := by
    refine ⟨by decide, ?_, by norm_num⟩
    intro p hp
    simp only [List.mem_cons, List.not_mem_nil, or_false] at hp
    rcases hp with rfl | rfl <;> norm_num
  have hw2 : IsProbDist [("01", (1 : Rat))] := by
    refine ⟨by decide, ?_, by norm_num⟩
    intro p hp
    simp only [List.mem_cons, List.not_mem_nil, or_false] at hp
    rcases hp with rfl
    norm_num
  exact ⟨hw1, hw2, similarity_metric_spec _ _ hw1 hw2⟩

/-- Lookup after the in-place overwrite pass hits the overwritten value
    whenever the key was present. -/
lemma pyLookup_map_replace_self {α : Type} (m : List (String × α))
    (k : String) (v : α) (h : (pyLookup m k).isSome) :
    pyLookup (m.map (fun p => if p.1 = k then (k, v) else p)) k = some v := by
  induction m with
  | nil => simp [pyLookup] at h
  | cons p rest ih =>
      by_cases hp : p.1 = k
      · simp [pyLookup, hp]
      · have hrest : (pyLookup rest k).isSome := by
          simpa [pyLookup, hp] using h
        simp [pyLookup, hp, ih hrest]

/-- The in-place overwrite pass leaves other keys untouched. -/
lemma pyLookup_map_replace_ne {α : Type} (m : List (String × α))
    (k k2 : String) (v : α) (hne : k2 ≠ k) :
    pyLookup (m.map (fun p => if p.1 = k then (k, v) else p)) k2 =
      pyLookup m k2 := by
  induction m with
  | nil => rfl
  | cons p rest ih =>
      by_cases hp : p.1 = k
      · simp [pyLookup, hp, show ¬(k = k2) from fun he => hne he.symm, ih]
      · by_cases hp2 : p.1 = k2
        · simp [pyLookup, hp, hp2, fun he : k2 = k => hne he]
        · simp [pyLookup, hp, hp2, ih]

/-- Appending a fresh entry makes its key found when it was absent. -/
lemma pyLookup_append_self {α : Type} (m : List (String × α))
    (k : String) (v : α) (h : pyLookup m k = none) :
    pyLookup (m ++ [(k, v)]) k = some v := by
  induction m with
  | nil => simp [pyLookup]
  | cons p rest ih =>
      by_cases hp : p.1 = k
      · simp [pyLookup, hp] at h
      · have hrest : pyLookup rest k = none := by
          simpa [pyLookup, hp] using h
        simp [pyLookup, hp, ih hrest]

/-- Appending an entry leaves other keys untouched. -/
lemma pyLookup_append_ne {α : Type} (m : List (String × α))
    (k k2 : String) (v : α) (hne : k2 ≠ k) :
    pyLookup (m ++ [(k, v)]) k2 = pyLookup m k2 := by
  induction m with
  | nil => simp [pyLookup, show ¬(k = k2) from fun he => hne he.symm]
  | cons p rest ih =>
      by_cases hp2 : p.1 = k2
      · simp [pyLookup, hp2]
      · simp [pyLookup, hp2, ih]

/-- Dict assignment then lookup of the same key returns the new value. -/
lemma pyLookup_dictInsert_self {α : Type} (m : List (String × α))
    (k : String) (v : α) : pyLookup (dictInsert m k v) k = some v := by
  unfold dictInsert
  by_cases h : (pyLookup m k).isSome
  · rw [if_pos h]
    exact pyLookup_map_replace_self m k v h
  · rw [if_neg h]
    refine pyLookup_append_self m k v ?_
    cases hl : pyLookup m k with
    | none => rfl
    | some v2 => exact absurd (by rw [hl]; rfl) h

/-- Dict assignment leaves lookups of other keys unchanged. -/
lemma pyLookup_dictInsert_ne {α : Type} (m : List (String × α))
    (k k2 : String) (v : α) (hne : k2 ≠ k) :
    pyLookup (dictInsert m k v) k2 = pyLookup m k2 := by
  unfold dictInsert
  by_cases h : (pyLookup m k).isSome
  · rw [if_pos h]
    exact pyLookup_map_replace_ne m k k2 v hne
  · rw [if_neg h]
    exact pyLookup_append_ne m k k2 v hne

/-- The loop body records, for the engine it processes, exactly the error
    entry determined by the registry. -/
lemma multiStep_errors_self (registry : List (String × EngineOutcome))
    (acc : MultiAcc) (name : String) :
    pyLookup (multiStep registry acc name).errors name =
      if (expectedError registry name).isSome then expectedError registry name
      else pyLookup acc.errors name := by
  unfold multiStep expectedError
  cases h : pyLookup registry name with
  | none => simp [pyLookup_dictInsert_self]
  | some beh =>
      cases beh with
      | error e => simp [pyLookup_dictInsert_self]
      | ok r =>
          cases hr : r.error with
          | none => simp [hr]
          | some e =>
              by_cases he : e = ""
              · simp [hr, he]
              · simp [hr, he, pyLookup_dictInsert_self]

/-- The loop body records, for the engine it processes, exactly the
    results entry determined by the registry. -/
lemma multiStep_results_self (registry : List (String × EngineOutcome))
    (acc : MultiAcc) (name : String) :
    pyLookup (multiStep registry acc name).results name =
      if (expectedResult registry name).isSome then expectedResult registry name
      else pyLookup acc.results name := by
  unfold multiStep expectedResult
  cases h : pyLookup registry name with
  | none => simp
  | some beh =>
      cases beh with
      | error e => simp
      | ok r =>
          cases hr : r.error with
          | none => simp [hr, pyLookup_dictInsert_self]
          | some e =>
              by_cases he : e = ""
              · simp [hr, he, pyLookup_dictInsert_self]
              · simp [hr, he]

/-- Processing one engine never touches the error entry of another engine. -/
lemma multiStep_errors_ne (registry : List (String × EngineOutcome))
    (acc : MultiAcc) (x name : String) (hne : name ≠ x) :
    pyLookup (multiStep registry acc x).errors name =
      pyLookup acc.errors name := by
  unfold multiStep
  cases h : pyLookup registry x with
  | none => simp [pyLookup_dictInsert_ne _ _ _ _ hne]
  | some beh =>
      cases beh with
      | error e => simp [pyLookup_dictInsert_ne _ _ _ _ hne]
      | ok r =>
          cases hr : r.error with
          | none => simp [hr]
          | some e =>
              by_cases he : e = ""
              · simp [hr, he]
              · simp [hr, he, pyLookup_dictInsert_ne _ _ _ _ hne]

/-- Processing one engine never touches the results entry of another engine. -/
lemma multiStep_results_ne (registry : List (String × EngineOutcome))
    (acc : MultiAcc) (x name : String) (hne : name ≠ x) :
    pyLookup (multiStep registry acc x).results name =
      pyLookup acc.results name := by
  unfold multiStep
  cases h : pyLookup registry x with
  | none => simp
  | some beh =>
      cases beh with
      | error e => simp
      | ok r =>
          cases hr : r.error with
          | none => simp [hr, pyLookup_dictInsert_ne _ _ _ _ hne]
          | some e =>
              by_cases he : e = ""
              · simp [hr, he, pyLookup_dictInsert_ne _ _ _ _ hne]
              · simp [hr, he]

/-- Final error entry of the multi-engine loop for any engine id: the
    value determined by the registry when the id was requested and has
    an error disposition, the incoming entry otherwise. -/
lemma multi_fold_errors (registry : List (String × EngineOutcome))
    (names : List String) (acc : MultiAcc) (name : String) :
    pyLookup (names.foldl (multiStep registry) acc).errors name =
      if name ∈ names ∧ (expectedError registry name).isSome
      then expectedError registry name
      else pyLookup acc.errors name := by
  induction names generalizing acc with
  | nil => simp
  | cons x xs ih =>
      rw [List.foldl_cons, ih]
      by_cases hx : name ∈ xs ∧ (expectedError registry name).isSome
      · rw [if_pos hx, if_pos ⟨List.mem_cons_of_mem _ hx.1, hx.2⟩]
      · rw [if_neg hx]
        by_cases hnx : name = x
        · subst hnx
          by_cases hes : (expectedError registry name).isSome
          · rw [multiStep_errors_self, if_pos hes,
              if_pos ⟨List.mem_cons_self _ _, hes⟩]
          · rw [multiStep_errors_self, if_neg hes,
              if_neg (fun hc => hes hc.2)]
        · rw [multiStep_errors_ne registry acc x name hnx,
            if_neg (fun hc =>
              hx ⟨(List.mem_cons.mp hc.1).resolve_left hnx, hc.2⟩)]

/-- Final results entry of the multi-engine loop for any engine id. -/
lemma multi_fold_results (registry : List (String × EngineOutcome))
    (names : List String) (acc : MultiAcc) (name : String) :
    pyLookup (names.foldl (multiStep registry) acc).results name =
      if name ∈ names ∧ (expectedResult registry name).isSome
      then expectedResult registry name
      else pyLookup acc.results name := by
  induction names generalizing acc with
  | nil => simp
  | cons x xs ih =>
      rw [List.foldl_cons, ih]
      by_cases hx : name ∈ xs ∧ (expectedResult registry name).isSome
      · rw [if_pos hx, if_pos ⟨List.mem_cons_of_mem _ hx.1, hx.2⟩]
      · rw [if_neg hx]
        by_cases hnx : name = x
        · subst hnx
          by_cases hes : (expectedResult registry name).isSome
          · rw [multiStep_results_self, if_pos hes,
              if_pos ⟨List.mem_cons_self _ _, hes⟩]
          · rw [multiStep_results_self, if_neg hes,
              if_neg (fun hc => hes hc.2)]
        · rw [multiStep_results_ne registry acc x name hnx,
            if_neg (fun hc =>
              hx ⟨(List.mem_cons.mp hc.1).resolve_left hnx, hc.2⟩)]

/-- C6 counterexample: the claim says every requested registered engine
    appears under results on success or under errors on its own failure;
    on the code, an engine whose execution fails with an EMPTY error
    string — e.g. a bare MemoryError, whose str() is empty, converted by
    the adapter boundary into an error result — is filed under results
    (with counts absent) and gets no errors entry, because server.py:285
    tests the error field for Python truthiness, not for None. -/
theorem empty_error_failure_filed_under_results :
    pyLookup (execute_multi_backend
        [("qiskit", Except.ok (errResult "qiskit" 1000 ""))]
        ["qiskit"]).errors "qiskit" = none ∧
    pyLookup (execute_multi_backend
        [("qiskit", Except.ok (errResult "qiskit" 1000 ""))]
        ["qiskit"]).results "qiskit" = some (errResult "qiskit" 1000 "") ∧
    (errResult "qiskit" 1000 "").counts = none ∧
    (errResult "qiskit" 1000 "").error = some "" :=
  ⟨rfl, rfl, rfl, rfl⟩

/-- C6 (amended): in a multi-engine request, a requested engine id
    missing from the registry is recorded under errors as
    backend-not-available and gets no results entry; every requested
    registered engine still executes: a raised exception, or a returned
    result whose error string is nonempty, lands under errors, and a
    successful result lands under results — but a failing result whose
    error string is EMPTY is filed under results (with its counts
    absent), because the loop tests the error field for Python
    truthiness rather than for None; and the final entries of each
    engine coincide with those of a request naming it alone, so the
    failure of one engine never affects the outcome of another. -/
theorem multi_engine_isolation (registry : List (String × EngineOutcome))
    (names : List String) (name : String) (hmem : name ∈ names) :
    (pyLookup registry name = none →
      pyLookup (execute_multi_backend registry names).errors name =
        some "Backend not available" ∧
      pyLookup (execute_multi_backend registry names).results name = none) ∧
    (∀ r, pyLookup registry name = some (Except.ok r) → r.error = none →
      pyLookup (execute_multi_backend registry names).results name = some r ∧
      pyLookup (execute_multi_backend registry names).errors name = none) ∧
    (∀ e, pyLookup registry name = some (Except.error e) →
      pyLookup (execute_multi_backend registry names).errors name = some e ∧
      pyLookup (execute_multi_backend registry names).results name = none) ∧
    (∀ r e, pyLookup registry name = some (Except.ok r) → r.error = some e →
      e ≠ "" →
      pyLookup (execute_multi_backend registry names).errors name = some e ∧
      pyLookup (execute_multi_backend registry names).results name = none) ∧
    (∀ r, pyLookup registry name = some (Except.ok r) → r.error = some "" →
      pyLookup (execute_multi_backend registry names).results name = some r ∧
      pyLookup (execute_multi_backend registry names).errors name = none) ∧
    (pyLookup (execute_multi_backend registry names).errors name =
       pyLookup (execute_multi_backend registry [name]).errors name ∧
     pyLookup (execute_multi_backend registry names).results name =
       pyLookup (execute_multi_backend registry [name]).results name) := by
  have herr := multi_fold_errors registry names
    { results := [], errors := [] } name
  have hres := multi_fold_results registry names
    { results := [], errors := [] } name
  have herr1 := multi_fold_errors registry [name]
    { results := [], errors := [] } name
  have hres1 := multi_fold_results registry [name]
    { results := [], errors := [] } name
  unfold execute_multi_backend at *
  refine ⟨?_, ?_, ?_, ?_, ?_, ?_⟩
  · intro hreg
    have he : expectedError registry name = some "Backend not available" := by
      simp [expectedError, hreg]
    have hr : expectedResult registry name = none := by
      simp [expectedResult, hreg]
    constructor
    · rw [herr, if_pos ⟨hmem, by rw [he]; rfl⟩, he]
    · rw [hres, if_neg (fun hc => by simp [hr] at hc)]
      rfl
  · intro r hreg hok
    have he : expectedError registry name = none := by
      simp [expectedError, hreg, hok]
    have hr : expectedResult registry name = some r := by
      simp [expectedResult, hreg, hok]
    constructor
    · rw [hres, if_pos ⟨hmem, by rw [hr]; rfl⟩, hr]
    · rw [herr, if_neg (fun hc => by simp [he] at hc)]
      rfl
  · intro e hreg
    have he : expectedError registry name = some e := by
      simp [expectedError, hreg]
    have hr : expectedResult registry name = none := by
      simp [expectedResult, hreg]
    constructor
    · rw [herr, if_pos ⟨hmem, by rw [he]; rfl⟩, he]
    · rw [hres, if_neg (fun hc => by simp [hr] at hc)]
      rfl
  · intro r e hreg hrerr hene
    have he : expectedError registry name = some e := by
      simp [expectedError, hreg, hrerr, hene]
    have hr : expectedResult registry name = none := by
      simp [expectedResult, hreg, hrerr, hene]
    constructor
    · rw [herr, if_pos ⟨hmem, by rw [he]; rfl⟩, he]
    · rw [hres, if_neg (fun hc => by simp [hr] at hc)]
      rfl
  · intro r hreg hrerr
    have he : expectedError registry name = none := by
      simp [expectedError, hreg, hrerr]
    have hr : expectedResult registry name = some r := by
      simp [expectedResult, hreg, hrerr]
    constructor
    · rw [hres, if_pos ⟨hmem, by rw [hr]; rfl⟩, hr]
    · rw [herr, if_neg (fun hc => by simp [he] at hc)]
      rfl
  · have hmem1 : name ∈ [name] := List.mem_singleton.mpr rfl
    constructor
    · rw [herr, herr1]
      by_cases hs : (expectedError registry name).isSome
      · rw [if_pos ⟨hmem, hs⟩, if_pos ⟨hmem1, hs⟩]
      · rw [if_neg (fun hc => hs hc.2), if_neg (fun hc => hs hc.2)]
    · rw [hres, hres1]
      by_cases hs : (expectedResult registry name).isSome
      · rw [if_pos ⟨hmem, hs⟩, if_pos ⟨hmem1, hs⟩]
      · rw [if_neg (fun hc => hs hc.2), if_neg (fun hc => hs hc.2)]

/-- Witness for C6: a registry holding only a successful qiskit engine,
    with a request naming qiskit and the unregistered id bogus: bogus is
    recorded under errors, qiskit still lands under results. -/
theorem multi_engine_isolation_witness :
    pyLookup (execute_multi_backend
        [("qiskit", Except.ok { backend := "qiskit" })]
        ["qiskit", "bogus"]).errors "bogus" =
      some "Backend not available" ∧
    pyLookup (execute_multi_backend
        [("qiskit", Except.ok { backend := "qiskit" })]
        ["qiskit", "bogus"]).results "qiskit" =
      some { backend := "qiskit" } :=
  ⟨((multi_engine_isolation
      [("qiskit", Except.ok { backend := "qiskit" })]
      ["qiskit", "bogus"] "bogus" (by decide)).1 rfl).1,
   ((multi_engine_isolation
      [("qiskit", Except.ok { backend := "qiskit" })]
      ["qiskit", "bogus"] "qiskit" (by decide)).2.1
      { backend := "qiskit" } rfl rfl).1⟩

/-- Dividing every value of a Nat list by a common rational and summing
    is summing then dividing. -/
lemma sum_map_div (l : List Nat) (c : Rat) :
    (l.map (fun (v : Nat) => (v : Rat) / c)).sum = ((l.sum : Nat) : Rat) / c := by
  induction l with
  | nil => simp
  | cons a t ih => simp [List.map_cons, List.sum_cons, ih, Nat.cast_add, add_div]

/-- Reversing a string keeps its length (qiskit_backend.py:89 keeps
    num_qubits characters per key). -/
lemma strRev_length (s : String) : (strRev s).length = s.length := by
  cases s with
  | mk d =>
      show d.reverse.length = d.length
      exact List.length_reverse d

/-- The length of a joined measurement row is the number of measured
    qubits. -/
lemma rowKey_length (row : List Bool) : (rowKey row).length = row.length := by
  show (row.map bitChar).length = row.length
  exact List.length_map row bitChar

/-- Incrementing a counts dict never empties it. -/
lemma bumpCount_ne_nil (acc : List (String × Nat)) (k : String) :
    bumpCount acc k ≠ [] := by
  unfold bumpCount
  by_cases h : (pyLookup acc k).isSome
  · rw [if_pos h]
    intro hc
    rw [List.map_eq_nil_iff] at hc
    subst hc
    simp [pyLookup] at h
  · rw [if_neg h]
    simp

/-- A key property shared by all entries is preserved by one increment,
    provided the new key also has it. -/
lemma bumpCount_key_invariant (P : String → Prop) (acc : List (String × Nat))
    (k : String) (hacc : ∀ p ∈ acc, P p.1) (hk : P k) :
    ∀ p ∈ bumpCount acc k, P p.1 := by
  unfold bumpCount
  by_cases h : (pyLookup acc k).isSome
  · rw [if_pos h]
    intro p hp
    rw [List.mem_map] at hp
    obtain ⟨q, hq, hqe⟩ := hp
    by_cases hqk : q.1 = k
    · rw [if_pos hqk] at hqe
      rw [← hqe]
      exact hacc q hq
    · rw [if_neg hqk] at hqe
      rw [← hqe]
      exact hacc q hq
  · rw [if_neg h]
    intro p hp
    rcases List.mem_append.mp hp with hin | hin
    · exact hacc p hin
    · rw [List.mem_singleton] at hin
      rw [hin]
      exact hk

/-- Positivity of all stored counts is preserved by one increment. -/
lemma bumpCount_pos_invariant (acc : List (String × Nat)) (k : String)
    (hacc : ∀ p ∈ acc, 0 < p.2) : ∀ p ∈ bumpCount acc k, 0 < p.2 := by
  unfold bumpCount
  by_cases h : (pyLookup acc k).isSome
  · rw [if_pos h]
    intro p hp
    rw [List.mem_map] at hp
    obtain ⟨q, hq, hqe⟩ := hp
    by_cases hqk : q.1 = k
    · rw [if_pos hqk] at hqe
      rw [← hqe]
      exact Nat.succ_pos _
    · rw [if_neg hqk] at hqe
      rw [← hqe]
      exact hacc q hq
  · rw [if_neg h]
    intro p hp
    rcases List.mem_append.mp hp with hin | hin
    · exact hacc p hin
    · rw [List.mem_singleton] at hin
      rw [hin]
      exact Nat.one_pos

/-- Every key stored by the rows fold is a joined row; every count is
    positive; the dict is nonempty when there was at least one row. -/
lemma rowsToCounts_invariants (n : Nat) (rows : List (List Bool))
    (hlen : ∀ r ∈ rows, r.length = n) :
    (∀ p ∈ rowsToCounts rows, p.1.length = n) ∧
    (∀ p ∈ rowsToCounts rows, 0 < p.2) ∧
    (rows ≠ [] → rowsToCounts rows ≠ []) := by
  have main : ∀ (rs : List (List Bool)) (acc : List (String × Nat)),
      (∀ r ∈ rs, r.length = n) →
      (∀ p ∈ acc, p.1.length = n) → (∀ p ∈ acc, 0 < p.2) →
      (∀ p ∈ rs.foldl (fun a r => bumpCount a (rowKey r)) acc, p.1.length = n) ∧
      (∀ p ∈ rs.foldl (fun a r => bumpCount a (rowKey r)) acc, 0 < p.2) ∧
      (acc ≠ [] ∨ rs ≠ [] →
        rs.foldl (fun a r => bumpCount a (rowKey r)) acc ≠ []) := by
    intro rs
    induction rs with
    | nil =>
        intro acc _ hk hv
        refine ⟨hk, hv, ?_⟩
        intro hne
        simpa using hne
    | cons r rest ih =>
        intro acc hrs hk hv
        have hrlen : r.length = n := hrs r (List.mem_cons_self _ _)
        have hrest : ∀ q ∈ rest, q.length = n :=
          fun q hq => hrs q (List.mem_cons_of_mem _ hq)
        have hk2 : ∀ p ∈ bumpCount acc (rowKey r), p.1.length = n :=
          bumpCount_key_invariant (fun s => s.length = n) acc (rowKey r) hk
            (by show (rowKey r).length = n; rw [rowKey_length, hrlen])
        have hv2 : ∀ p ∈ bumpCount acc (rowKey r), 0 < p.2 :=
          bumpCount_pos_invariant acc (rowKey r) hv
        obtain ⟨ha, hb, hc⟩ := ih (bumpCount acc (rowKey r)) hrest hk2 hv2
        refine ⟨by simpa using ha, by simpa using hb, ?_⟩
        intro _
        simp only [List.foldl_cons]
        exact hc (Or.inl (bumpCount_ne_nil acc (rowKey r)))
  obtain ⟨ha, hb, hc⟩ := main rows [] hlen (by simp) (by simp)
  exact ⟨ha, hb, fun hne => hc (Or.inr hne)⟩

/-- A nonempty list of positive counts has positive total. -/
lemma counts_total_pos (fc : List (String × Nat)) (hne : fc ≠ [])
    (hpos : ∀ p ∈ fc, 0 < p.2) : 0 < (fc.map Prod.snd).sum := by
  cases fc with
  | nil => exact absurd rfl hne
  | cons p rest =>
      have hp : 0 < p.2 := hpos p (List.mem_cons_self _ _)
      simp only [List.map_cons, List.sum_cons]
      exact Nat.lt_of_lt_of_le hp (Nat.le_add_right _ _)

/-- With a positive total the probability-derivation tail takes its
    success branch. -/
lemma finishCounts_success (name : String) (shots : Nat)
    (fc : List (String × Nat)) (htot : (fc.map Prod.snd).sum ≠ 0) :
    finishCounts name shots fc =
      { backend := name, counts := some fc,
        probabilities := some (fc.map
          (fun p => (p.1, (p.2 : Rat) / (((fc.map Prod.snd).sum : Nat) : Rat)))),
        metadata := some { shots := shots, success := true } } := by
  unfold finishCounts
  rw [if_neg (fun hc => htot hc.2)]

/-- Transcription of the spec properties of a successful CircuitResult
    (spec sections 3 and 8): error absent, probabilities are exactly
    count/total over the counts keys, they total 1 (hence within 1e-6 of
    1), and every key of counts and probabilities has num_qubits
    characters. -/
def ResultProbsSpec (n : Nat) (r : CircuitResult) : Prop :=
  r.error = none ∧
  ∃ fc probs,
    r.counts = some fc ∧ r.probabilities = some probs ∧
    probs = fc.map
      (fun p => (p.1, (p.2 : Rat) / (((fc.map Prod.snd).sum : Nat) : Rat))) ∧
    (probs.map Prod.snd).sum = 1 ∧
    |(probs.map Prod.snd).sum - 1| ≤ 1 / 1000000 ∧
    (∀ p ∈ fc, p.1.length = n) ∧ (∀ p ∈ probs, p.1.length = n)

/-- Probability and key-length facts for a formatted counts dict with
    positive counts and keys of width n. -/
lemma finishCounts_result_probs (name : String) (n shots : Nat)
    (fc : List (String × Nat)) (hne : fc ≠ [])
    (hpos : ∀ p ∈ fc, 0 < p.2) (hkeys : ∀ p ∈ fc, p.1.length = n) :
    ResultProbsSpec n (finishCounts name shots fc) := by
  have htotpos := counts_total_pos fc hne hpos
  have htot : (fc.map Prod.snd).sum ≠ 0 := Nat.pos_iff_ne_zero.mp htotpos
  rw [finishCounts_success name shots fc htot]
  have hcast : (((fc.map Prod.snd).sum : Nat) : Rat) ≠ 0 := by
    exact_mod_cast htot
  have hsum1 : ((fc.map
      (fun p => (p.1, (p.2 : Rat) /
        (((fc.map Prod.snd).sum : Nat) : Rat)))).map Prod.snd).sum = 1 := by
    rw [List.map_map]
    have : (Prod.snd ∘ fun p : String × Nat =>
        (p.1, (p.2 : Rat) / (((fc.map Prod.snd).sum : Nat) : Rat))) =
        (fun p : String × Nat =>
          ((p.2 : Nat) : Rat) / (((fc.map Prod.snd).sum : Nat) : Rat)) := rfl
    rw [this]
    have hmm : fc.map (fun p : String × Nat =>
        ((p.2 : Nat) : Rat) / (((fc.map Prod.snd).sum : Nat) : Rat)) =
        (fc.map Prod.snd).map
          (fun (v : Nat) => (v : Rat) / (((fc.map Prod.snd).sum : Nat) : Rat)) := by
      rw [List.map_map]
      rfl
    rw [hmm, sum_map_div, div_self hcast]
  refine ⟨rfl, fc, _, rfl, rfl, rfl, hsum1, ?_, hkeys, ?_⟩
  · rw [hsum1]
    norm_num
  · intro p hp
    rw [List.mem_map] at hp
    obtain ⟨q, hq, hqe⟩ := hp
    rw [← hqe]
    exact hkeys q hq

/-- C7: a successful result of the Qiskit adapter (given the native
    counts of an all-qubit measurement: n-character keys, positive
    counts, at least one entry) and of the Cirq adapter (given per-shot
    rows of n qubits, at least one shot) satisfies the spec probability
    invariants: probabilities are exactly count/total, they sum to 1
    (within the 1e-6 tolerance trivially), and every counts and
    probabilities key has exactly n characters. -/
theorem probabilities_normalized (n shots : Nat)
    (nc : List (String × Nat)) (rows : List (List Bool))
    (hnc : nc ≠ []) (hkeys : ∀ p ∈ nc, p.1.length = n)
    (hpos : ∀ p ∈ nc, 0 < p.2)
    (hrows : rows ≠ []) (hrlen : ∀ r ∈ rows, r.length = n) :
    ResultProbsSpec n (qiskit_execute_core shots (Except.ok nc)) ∧
    ResultProbsSpec n (cirq_execute_core shots (Except.ok rows)) := by
  constructor
  · show ResultProbsSpec n
      (finishCounts "qiskit" shots (nc.map (fun p => (strRev p.1, p.2))))
    refine finishCounts_result_probs "qiskit" n shots _ ?_ ?_ ?_
    · intro hc
      rw [List.map_eq_nil_iff] at hc
      exact hnc hc
    · intro p hp
      rw [List.mem_map] at hp
      obtain ⟨q, hq, hqe⟩ := hp
      rw [← hqe]
      exact hpos q hq
    · intro p hp
      rw [List.mem_map] at hp
      obtain ⟨q, hq, hqe⟩ := hp
      rw [← hqe]
      show (strRev q.1).length = n
      rw [strRev_length]
      exact hkeys q hq
  · show ResultProbsSpec n (finishCounts "cirq" shots (rowsToCounts rows))
    obtain ⟨ha, hb, hc⟩ := rowsToCounts_invariants n rows hrlen
    exact finishCounts_result_probs "cirq" n shots _ (hc hrows) hb ha

/-- Witness for C7 at a concrete two-qubit native outcome. -/
theorem probabilities_normalized_witness :
    ResultProbsSpec 2 (qiskit_execute_core 4 (Except.ok [("01", 3), ("11", 1)])) ∧
    ResultProbsSpec 2 (cirq_execute_core 4
      (Except.ok [[true, false], [true, false], [false, true], [true, false]])) :=
  probabilities_normalized 2 4 [("01", 3), ("11", 1)]
    [[true, false], [true, false], [false, true], [true, false]]
    (by decide) (by decide) (by decide) (by decide) (by decide)

/-- Reversing the native little-endian key yields the canonical
    big-endian key. -/
lemma strRev_littleStr (n : Nat) (f : Nat → Bool) :
    strRev (littleStr n f) = canonStr n f := by
  show String.mk (((List.range n).map (fun i => bitChar (f i))).reverse.reverse) =
    canonStr n f
  rw [List.reverse_reverse]
  rfl

/-- Character i of the canonical key is the measured value of qubit i:
    qubit 0 is the leftmost character. -/
lemma canonStr_get (n : Nat) (f : Nat → Bool) (i : Nat) (h : i < n) :
    (canonStr n f).data.get? i = some (bitChar (f i)) := by
  show ((List.range n).map (fun j => bitChar (f j))).get? i = _
  rw [List.get?_map, List.get?_range h]
  rfl

/-- Joining the per-qubit row in ascending qubit order is the canonical
    key directly. -/
lemma rowKey_range (n : Nat) (f : Nat → Bool) :
    rowKey ((List.range n).map f) = canonStr n f := by
  show String.mk (((List.range n).map f).map bitChar) = canonStr n f
  rw [List.map_map]
  rfl

/-- Incrementing the only key of a singleton counts dict. -/
lemma bumpCount_single_hit (k : String) (j : Nat) :
    bumpCount [(k, j)] k = [(k, j + 1)] := by
  simp [bumpCount, pyLookup]

/-- First increment on an empty counts dict. -/
lemma bumpCount_nil (k : String) : bumpCount [] k = [(k, 1)] := by
  simp [bumpCount, pyLookup]

/-- Folding m identical rows over a singleton counts dict adds m. -/
lemma foldl_bump_replicate (row : List Bool) :
    ∀ (m j : Nat),
      (List.replicate m row).foldl (fun a r => bumpCount a (rowKey r))
        [(rowKey row, j)] = [(rowKey row, j + m)] := by
  intro m
  induction m with
  | zero => intro j; simp
  | succ m0 ih =>
      intro j
      rw [List.replicate_succ, List.foldl_cons, bumpCount_single_hit, ih (j + 1)]
      rw [show j + 1 + m0 = j + (m0 + 1) from by omega]

/-- A deterministic engine reporting m identical rows produces the
    single-outcome counts dict carrying all m shots. -/
lemma rowsToCounts_replicate (row : List Bool) (m : Nat) (hm : 0 < m) :
    rowsToCounts (List.replicate m row) = [(rowKey row, m)] := by
  cases m with
  | zero => exact absurd hm (by simp)
  | succ m0 =>
      unfold rowsToCounts
      rw [List.replicate_succ, List.foldl_cons, bumpCount_nil,
        foldl_bump_replicate row m0 1, Nat.add_comm]

/-- Counts and error of a single-outcome success result. -/
lemma finishCounts_counts_single (name : String) (shots : Nat) (k : String)
    (h : shots ≠ 0) :
    (finishCounts name shots [(k, shots)]).counts = some [(k, shots)] ∧
    (finishCounts name shots [(k, shots)]).error = none := by
  rw [finishCounts_success name shots _ (by simpa using h)]
  exact ⟨rfl, rfl⟩

/-- C1: the canonical counts keys of every adapter carry qubit 0 leftmost.
    In general, for the modelled deterministic engines at any qubit
    count n and measured outcome f: the Qiskit adapter turns the native
    little-endian key into its character reversal, the canonical
    big-endian key, and the Cirq/PennyLane/PyTKET adapters join their
    native rows in ascending qubit order into the same canonical key
    whose character i is qubit i.  Concretely, the spec test circuit
    (x on qubit 0 of 2 qubits) yields on all four engines the single
    (hence dominant) outcome "10": leftmost character 1, other
    character 0. -/
theorem bit_ordering_canonical (n shots : Nat) (f : Nat → Bool)
    (hs : 0 < shots) :
    ((qiskit_execute_core shots (Except.ok [(littleStr n f, shots)])).counts =
       some [(canonStr n f, shots)] ∧
     (cirq_execute_core shots
        (Except.ok (List.replicate shots ((List.range n).map f)))).counts =
       some [(canonStr n f, shots)] ∧
     (pennylane_execute_core shots
        (Except.ok (List.replicate shots ((List.range n).map f)))).counts =
       some [(canonStr n f, shots)] ∧
     (pytket_execute_core shots
        (Except.ok [((List.range n).map f, shots)])).counts =
       some [(canonStr n f, shots)]) ∧
    ((∀ i, i < n → (canonStr n f).data.get? i = some (bitChar (f i))) ∧
     strRev (littleStr n f) = canonStr n f) ∧
    ((∃ c, qiskit_create_circuit 2 xTestDef = Except.ok c ∧
        ∃ r, qiskit_execute_model c shots = some r ∧
          r.error = none ∧ r.counts = some [("10", shots)]) ∧
     (∃ c, cirq_create_circuit 2 xTestDef = Except.ok c ∧
        ∃ r, cirq_execute_model c shots = some r ∧
          r.error = none ∧ r.counts = some [("10", shots)]) ∧
     (∃ r, pennylane_execute_model
        { last_num_qubits := some 2, last_circuit_def := some xTestDef }
        xTestDef shots = some r ∧
        r.error = none ∧ r.counts = some [("10", shots)]) ∧
     (∃ c, pytket_create_circuit 2 xTestDef = Except.ok c ∧
        ∃ r, pytket_execute_model c shots = some r ∧
          r.error = none ∧ r.counts = some [("10", shots)])) := by
  have hne : shots ≠ 0 := Nat.pos_iff_ne_zero.mp hs
  have h10 : (finishCounts "qiskit" shots [("10", shots)]).counts =
      some [("10", shots)] ∧
      (finishCounts "qiskit" shots [("10", shots)]).error = none :=
    finishCounts_counts_single "qiskit" shots "10" hne
  refine ⟨⟨?_, ?_, ?_, ?_⟩, ⟨canonStr_get n f, strRev_littleStr n f⟩,
    ⟨?_, ?_, ?_, ?_⟩⟩
  · show (finishCounts "qiskit" shots
      [(strRev (littleStr n f), shots)]).counts = _
    rw [strRev_littleStr]
    exact (finishCounts_counts_single "qiskit" shots _ hne).1
  · show (finishCounts "cirq" shots
      (rowsToCounts (List.replicate shots ((List.range n).map f)))).counts = _
    rw [rowsToCounts_replicate _ shots hs, rowKey_range]
    exact (finishCounts_counts_single "cirq" shots _ hne).1
  · show (finishCounts "pennylane" shots
      (rowsToCounts (List.replicate shots ((List.range n).map f)))).counts = _
    rw [rowsToCounts_replicate _ shots hs, rowKey_range]
    exact (finishCounts_counts_single "pennylane" shots _ hne).1
  · show (finishCounts "pytket" shots
      [(rowKey ((List.range n).map f), shots)]).counts = _
    rw [rowKey_range]
    exact (finishCounts_counts_single "pytket" shots _ hne).1
  · refine ⟨{ num_qubits := 2, instrs := [NInstr.x 0, NInstr.measureAll] },
      rfl, qiskit_execute_core shots (Except.ok [("01", shots)]), rfl, ?_, ?_⟩
    · show (finishCounts "qiskit" shots [("10", shots)]).error = none
      exact h10.2
    · show (finishCounts "qiskit" shots [("10", shots)]).counts = _
      exact h10.1
  · refine ⟨{ num_qubits := 2, instrs := [NInstr.x 0, NInstr.measureAll] },
      rfl, cirq_execute_core shots
        (Except.ok (List.replicate shots [true, false])), rfl, ?_, ?_⟩
    · show (finishCounts "cirq" shots
        (rowsToCounts (List.replicate shots [true, false]))).error = none
      rw [rowsToCounts_replicate _ shots hs,
        show rowKey [true, false] = "10" from by decide]
      exact (finishCounts_counts_single "cirq" shots _ hne).2
    · show (finishCounts "cirq" shots
        (rowsToCounts (List.replicate shots [true, false]))).counts = _
      rw [rowsToCounts_replicate _ shots hs,
        show rowKey [true, false] = "10" from by decide]
      exact (finishCounts_counts_single "cirq" shots _ hne).1
  · refine ⟨pennylane_execute_core shots
      (Except.ok (List.replicate shots [true, false])), rfl, ?_, ?_⟩
    · show (finishCounts "pennylane" shots
        (rowsToCounts (List.replicate shots [true, false]))).error = none
      rw [rowsToCounts_replicate _ shots hs,
        show rowKey [true, false] = "10" from by decide]
      exact (finishCounts_counts_single "pennylane" shots _ hne).2
    · show (finishCounts "pennylane" shots
        (rowsToCounts (List.replicate shots [true, false]))).counts = _
      rw [rowsToCounts_replicate _ shots hs,
        show rowKey [true, false] = "10" from by decide]
      exact (finishCounts_counts_single "pennylane" shots _ hne).1
  · refine ⟨{ num_qubits := 2, instrs := [NInstr.x 0, NInstr.measureAll] },
      rfl, pytket_execute_core shots (Except.ok [([true, false], shots)]),
      rfl, ?_, ?_⟩
    · show (finishCounts "pytket" shots
        [(rowKey [true, false], shots)]).error = none
      rw [show rowKey [true, false] = "10" from by decide]
      exact (finishCounts_counts_single "pytket" shots _ hne).2
    · show (finishCounts "pytket" shots
        [(rowKey [true, false], shots)]).counts = _
      rw [show rowKey [true, false] = "10" from by decide]
      exact (finishCounts_counts_single "pytket" shots _ hne).1

/-- Witness for C1 at 3 qubits, the outcome with qubit 0 measured 1, and
    1000 shots. -/
theorem bit_ordering_canonical_witness :
    (qiskit_execute_core 1000
      (Except.ok [(littleStr 3 (fun i => i = 0), 1000)])).counts =
      some [(canonStr 3 (fun i => i = 0), 1000)] ∧
    canonStr 3 (fun i => i = 0) = "100" :=
  ⟨(bit_ordering_canonical 3 1000 (fun i => i = 0) (by decide)).1.1,
   by decide⟩

/-- Appending the all-qubit measurement does not change the classical
    outcome of a circuit. -/
lemma classicalRun_append_measure (l : List NInstr) :
    classicalRun (l ++ [NInstr.measureAll]) = classicalRun l := by
  unfold classicalRun
  rw [List.foldlM_append]
  cases h : l.foldlM
      (fun f ins => (NInstr.classicalStep ins).map (fun step => step f))
      (fun _ => false) with
  | none => rfl
  | some f => rfl

/-- The X-on-qubit-0 dispatch succeeds on any device with at least one
    wire. -/
lemma pennylane_x_chain (k : Nat) (hk : 0 < k) :
    pennylaneGateInstr k { type := "x", qubits := [0], params := [] } =
      Except.ok [NInstr.x 0] := by
  have hc : chkQubit "pennylane" k 0 = Except.ok 0 := by
    unfold chkQubit
    rw [if_pos hk]
  have hred : pennylaneGateInstr k { type := "x", qubits := [0], params := [] } =
      Except.bind (chkQubit "pennylane" k 0) (fun q => Except.ok [NInstr.x q]) := rfl
  rw [hred, hc]
  rfl

/-- Executing the X test circuit on the PennyLane adapter uses the wire
    count stored on the adapter, not anything from the circuit argument:
    the sample rows span the stored number of wires. -/
lemma pennylane_execute_stored_wires (k : Nat) (dd : Option CircuitDef)
    (shots : Nat) (hk : 0 < k) :
    pennylane_execute_model
        { last_num_qubits := some k, last_circuit_def := dd }
        xTestDef shots =
      some (pennylane_execute_core shots (Except.ok
        (List.replicate shots
          ((List.range k).map (fun i => if i = 0 then true else false))))) := by
  have hfold : (xTestDef.gatesD).foldlM
      (fun acc g => do pure (acc ++ (← pennylaneGateInstr k g)))
      ([] : List NInstr) = Except.ok [NInstr.x 0] := by
    show Except.bind
      (Except.bind (pennylaneGateInstr k { type := "x", qubits := [0], params := [] })
        (fun r => Except.ok ([] ++ r)))
      (fun b => List.foldlM _ b []) = _
    rw [pennylane_x_chain k hk]
    rfl
  unfold pennylane_execute_model
  dsimp only
  rw [hfold]
  rfl

/-- C8 counterexample: the claim says interleaving an unrelated
    create_circuit between creating and executing a circuit never
    changes the execution outcome; on the PennyLane adapter it does.
    Creating the 2-qubit X test circuit, then creating an unrelated
    3-qubit circuit on the same adapter, then executing the first
    circuit yields 3-character outcome keys ("100") instead of the
    2-character keys ("10") of the uninterleaved run. -/
theorem pennylane_interleaving_changes_outcome :
    Option.map CircuitResult.counts
      (pennylane_execute_model (pennylane_create_circuit {} 2 xTestDef).1
        xTestDef 1000) = some (some [("10", 1000)]) ∧
    Option.map CircuitResult.counts
      (pennylane_execute_model
        ((pennylane_create_circuit (pennylane_create_circuit {} 2 xTestDef).1 3
          { gates := some [], measure := some true }).1) xTestDef 1000) =
      some (some [("100", 1000)]) ∧
    pennylane_execute_model (pennylane_create_circuit {} 2 xTestDef).1
        xTestDef 1000 ≠
      pennylane_execute_model
        ((pennylane_create_circuit (pennylane_create_circuit {} 2 xTestDef).1 3
          { gates := some [], measure := some true }).1) xTestDef 1000 := by
  have h1 := pennylane_execute_stored_wires 2 (some xTestDef) 1000 (by decide)
  have h2 := pennylane_execute_stored_wires 3
    (some { gates := some [], measure := some true }) 1000 (by decide)
  have hc1 : (pennylane_execute_core 1000 (Except.ok
      (List.replicate 1000
        ((List.range 2).map (fun i => if i = 0 then true else false))))).counts =
      some [("10", 1000)] := by
    show (finishCounts "pennylane" 1000 (rowsToCounts
      (List.replicate 1000
        ((List.range 2).map (fun i => if i = 0 then true else false))))).counts = _
    rw [rowsToCounts_replicate _ 1000 (by decide),
      show rowKey ((List.range 2).map (fun i => if i = 0 then true else false)) =
        "10" from by decide]
    exact (finishCounts_counts_single "pennylane" 1000 "10" (by decide)).1
  have hc2 : (pennylane_execute_core 1000 (Except.ok
      (List.replicate 1000
        ((List.range 3).map (fun i => if i = 0 then true else false))))).counts =
      some [("100", 1000)] := by
    show (finishCounts "pennylane" 1000 (rowsToCounts
      (List.replicate 1000
        ((List.range 3).map (fun i => if i = 0 then true else false))))).counts = _
    rw [rowsToCounts_replicate _ 1000 (by decide),
      show rowKey ((List.range 3).map (fun i => if i = 0 then true else false)) =
        "100" from by decide]
    exact (finishCounts_counts_single "pennylane" 1000 "100" (by decide)).1
  refine ⟨?_, ?_, ?_⟩
  · rw [show (pennylane_create_circuit {} 2 xTestDef).1 =
      { last_num_qubits := some 2, last_circuit_def := some xTestDef } from rfl,
      h1]
    rw [Option.map_some']
    rw [hc1]
  · rw [show (pennylane_create_circuit (pennylane_create_circuit {} 2 xTestDef).1 3
        { gates := some [], measure := some true }).1 =
      { last_num_qubits := some 3,
        last_circuit_def := some { gates := some [], measure := some true } } from
      rfl, h2]
    rw [Option.map_some']
    rw [hc2]
  · intro he
    rw [show (pennylane_create_circuit (pennylane_create_circuit {} 2 xTestDef).1 3
          { gates := some [], measure := some true }).1 =
        { last_num_qubits := some 3,
          last_circuit_def := some { gates := some [], measure := some true } } from
        rfl,
      show (pennylane_create_circuit {} 2 xTestDef).1 =
        { last_num_qubits := some 2, last_circuit_def := some xTestDef } from rfl,
      h1, h2] at he
    have hcc := congrArg CircuitResult.counts (Option.some.inj he)
    rw [hc1, hc2] at hcc
    simp at hcc

/-- C8 (amended): the Qiskit, Cirq and PyTKET adapter embeddings take no
    adapter state at all, but the PennyLane adapter is stateful:
    create_circuit stores the qubit count and definition on the adapter
    and returns the definition unchanged, and execute_circuit reads the
    stored last_num_qubits, so executions of the same circuit argument
    with the same shots differ whenever the stored wire counts differ —
    interleaving an unrelated create_circuit with a different qubit
    count changes the execution outcome. -/
theorem pennylane_adapter_state_dependence :
    (∀ (st : PennyLaneState) (n : Nat) (d : CircuitDef),
      (pennylane_create_circuit st n d).1 =
        { last_num_qubits := some n, last_circuit_def := some d } ∧
      (pennylane_create_circuit st n d).2 = d) ∧
    (∀ (k1 k2 shots : Nat) (d1 d2 : Option CircuitDef),
      0 < shots → 0 < k1 → 0 < k2 → k1 ≠ k2 →
      pennylane_execute_model
          { last_num_qubits := some k1, last_circuit_def := d1 }
          xTestDef shots ≠
        pennylane_execute_model
          { last_num_qubits := some k2, last_circuit_def := d2 }
          xTestDef shots) := by
  refine ⟨fun st n d => ⟨rfl, rfl⟩, ?_⟩
  intro k1 k2 shots d1 d2 hshots hk1 hk2 hne he
  rw [pennylane_execute_stored_wires k1 d1 shots hk1,
    pennylane_execute_stored_wires k2 d2 shots hk2] at he
  have hcounts : ∀ k, 0 < k →
      (pennylane_execute_core shots (Except.ok
        (List.replicate shots
          ((List.range k).map (fun i => if i = 0 then true else false))))).counts =
      some [(rowKey ((List.range k).map (fun i => if i = 0 then true else false)),
        shots)] := by
    intro k hk
    show (finishCounts "pennylane" shots (rowsToCounts
      (List.replicate shots
        ((List.range k).map (fun i => if i = 0 then true else false))))).counts = _
    rw [rowsToCounts_replicate _ shots hshots]
    exact (finishCounts_counts_single "pennylane" shots _
      (Nat.pos_iff_ne_zero.mp hshots)).1
  have he3 := Option.some.inj he
  have hcc := congrArg CircuitResult.counts he3
  rw [hcounts k1 hk1, hcounts k2 hk2] at hcc
  have hkey : rowKey ((List.range k1).map (fun i => if i = 0 then true else false)) =
      rowKey ((List.range k2).map (fun i => if i = 0 then true else false)) := by
    simpa using hcc
  have hlen := congrArg String.length hkey
  rw [rowKey_length, rowKey_length, List.length_map, List.length_map,
    List.length_range, List.length_range] at hlen
  exact hne hlen

/-- Witness for the amended C8 theorem: create stores the state, and
    stored wire counts 2 versus 3 give different executions of the same
    X test circuit. -/
theorem pennylane_adapter_state_dependence_witness :
    (pennylane_create_circuit {} 2 xTestDef).1 =
      { last_num_qubits := some 2, last_circuit_def := some xTestDef } ∧
    pennylane_execute_model
        { last_num_qubits := some 2, last_circuit_def := some xTestDef }
        xTestDef 1000 ≠
      pennylane_execute_model
        { last_num_qubits := some 3, last_circuit_def := some xTestDef }
        xTestDef 1000 :=
  ⟨(pennylane_adapter_state_dependence.1 {} 2 xTestDef).1,
   pennylane_adapter_state_dependence.2 2 3 1000 (some xTestDef)
     (some xTestDef) (by decide) (by decide) (by decide) (by decide)⟩

/-- C10: executing a Qiskit circuit that contains no measurement appends
    the all-qubit measurement to a fresh copy: the store afterwards is
    the old store plus the measured copy, the pre-existing entries (the
    prefix of the store) are unchanged, and the execution still returns
    a successful CircuitResult with counts present. -/
theorem qiskit_measure_fix_frame (store : List NativeCircuit)
    (i : Fin store.length) (shots : Nat)
    (hnm : NInstr.measureAll ∉ (store.get i).instrs)
    (hrun : (classicalRun (store.get i).instrs).isSome)
    (hs : 0 < shots) :
    (qiskit_execute_with_store store i shots).1 =
      store ++ [{ num_qubits := (store.get i).num_qubits,
                  instrs := (store.get i).instrs ++ [NInstr.measureAll] }] ∧
    (qiskit_execute_with_store store i shots).1.take store.length = store ∧
    ∃ r, (qiskit_execute_with_store store i shots).2 = some r ∧
      r.error = none ∧ r.counts.isSome ∧
      r.metadata = some { shots := shots, success := true } := by
  obtain ⟨f, hf⟩ := Option.isSome_iff_exists.mp hrun
  have hnative : qiskitNative
      { num_qubits := (store.get i).num_qubits,
        instrs := (store.get i).instrs ++ [NInstr.measureAll] } shots =
      some [(littleStr (store.get i).num_qubits f, shots)] := by
    unfold qiskitNative
    rw [if_pos (by simp), classicalRun_append_measure, hf]
    rfl
  have hout : qiskit_execute_with_store store i shots =
      (store ++ [{ num_qubits := (store.get i).num_qubits,
                   instrs := (store.get i).instrs ++ [NInstr.measureAll] }],
       some (qiskit_execute_core shots
         (Except.ok [(littleStr (store.get i).num_qubits f, shots)]))) := by
    unfold qiskit_execute_with_store
    dsimp only
    rw [if_neg hnm, hnative]
    rfl
  rw [hout]
  have hres : qiskit_execute_core shots
      (Except.ok [(littleStr (store.get i).num_qubits f, shots)]) =
      finishCounts "qiskit" shots
        [(strRev (littleStr (store.get i).num_qubits f), shots)] := rfl
  refine ⟨rfl, List.take_left store _, _, rfl, ?_, ?_, ?_⟩
  · rw [hres, finishCounts_success _ _ _
      (by simpa using Nat.pos_iff_ne_zero.mp hs)]
  · rw [hres, finishCounts_success _ _ _
      (by simpa using Nat.pos_iff_ne_zero.mp hs)]
    rfl
  · rw [hres, finishCounts_success _ _ _
      (by simpa using Nat.pos_iff_ne_zero.mp hs)]

/-- Witness for C10: a one-entry store holding the unmeasured X circuit. -/
theorem qiskit_measure_fix_frame_witness :
    (qiskit_execute_with_store [{ num_qubits := 2, instrs := [NInstr.x 0] }]
        ⟨0, by decide⟩ 1000).1 =
      [{ num_qubits := 2, instrs := [NInstr.x 0] },
       { num_qubits := 2, instrs := [NInstr.x 0, NInstr.measureAll] }] ∧
    ∃ r, (qiskit_execute_with_store [{ num_qubits := 2, instrs := [NInstr.x 0] }]
        ⟨0, by decide⟩ 1000).2 = some r ∧
      r.error = none ∧ r.counts.isSome ∧
      r.metadata = some { shots := 1000, success := true } :=
  ⟨(qiskit_measure_fix_frame [{ num_qubits := 2, instrs := [NInstr.x 0] }]
      ⟨0, by decide⟩ 1000 (by decide) (by rfl) (by decide)).1,
   (qiskit_measure_fix_frame [{ num_qubits := 2, instrs := [NInstr.x 0] }]
      ⟨0, by decide⟩ 1000 (by decide) (by rfl) (by decide)).2.2⟩

end QuantumMCP
